import Mathlib

/-!
Shallow embedding of the Ma Sói (werewolf party game) room server
(`src/server.js`): the session registry, the per-room state machine and
every socket event handler, together with the outbound messages each
handler emits.  Randomness (`Math.random`) is passed in explicitly as an
oracle; socket-level side effects (joining broadcast groups) that never
touch the registry are not part of the state.
-/

set_option maxHeartbeats 1000000

/-- A joined player record: connection id, display name, optional role. -/
structure Player where
  id : String
  name : String
  role : Option String
deriving DecidableEq, Repr

/-- Room lifecycle status. -/
inductive Status where
  | waiting
  | assigned
deriving DecidableEq, Repr

/-- Per-room state: optional moderator connection id, ordered players, status. -/
structure Room where
  moderatorId : Option String
  players : List Player
  status : Status
deriving DecidableEq, Repr

/-- The registry `rooms : Map<RoomCode, RoomData>`, as an association list
in insertion order (JS `Map` preserves insertion order). -/
abbrev Registry := List (String × Room)

/-- Message destinations: a single connection (`socket.emit` /
`io.to(socketId)`) or a room broadcast group (`io.to(roomCode)`). -/
inductive Recipient where
  | conn (sid : String)
  | group (code : String)
deriving DecidableEq, Repr

/-- Outbound wire messages with their payloads. -/
inductive Msg where
  | room_created (roomCode : String)
  | role_assigned_moderator
  | role_assigned_player (roomCode : String)
  | player_list_update (players : List Player)
  | player_count_update (n : Nat)
  | init_state (hasModerator : Bool) (playerCount : Nat)
  | receive_role (role : String)
  | role_summary (summary : List (String × Option String))
  | status_msg (text : String)
  | error_msg (text : String)
  | room_reset
  | mod_status_update (hasModerator : Bool)
  | kicked
deriving DecidableEq, Repr

abbrev Emit := Recipient × Msg

/-- `rooms.get(code)` on the association list (first binding wins). -/
def lookupR (s : Registry) (code : String) : Option Room :=
  (s.find? (fun cr => cr.1 == code)).map (·.2)

/-- `rooms.set(code, room)`: replace the first binding of `code`, or append. -/
def setR : Registry → String → Room → Registry
  | [], code, room => [(code, room)]
  | (c, r) :: rest, code, room =>
    if c == code then (code, room) :: rest else (c, r) :: setR rest code room

/-- The 32-character room-code alphabet of `generateRoomCode`
(uppercase letters and digits without I, O, 0, 1). -/
def roomCodeChars : List Char := "ABCDEFGHJKLMNPQRSTUVWXYZ23456789".toList

/-- One character pick `chars.charAt(Math.floor(Math.random() * chars.length))`,
with the random draw given as an arbitrary natural reduced into range. -/
def charAtRandom (r : Nat) : Char :=
  roomCodeChars.getD (r % roomCodeChars.length) 'A'

/-- One attempt of the code-building loop: four successive random picks. -/
def codeAttempt (r : Nat → Nat) : String :=
  String.mk ((List.range 4).map (fun k => charAtRandom (r k)))

/-- `generateRoomCode()`: build a 4-character code, retry on collision with a
live room.  The unbounded JS recursion is given one random oracle per
attempt; an exhausted oracle list models nontermination as `none`. -/
def generateRoomCode (rooms : Registry) : List (Nat → Nat) → Option String
  | [] => none
  | r :: rest =>
    let code := codeAttempt r
    if (lookupR rooms code).isSome then generateRoomCode rooms rest
    else some code

/-- `getRoom(roomId)`: lazily create an empty waiting room, returning the
updated registry together with the room. -/
def getRoom (s : Registry) (code : String) : Registry × Room :=
  match lookupR s code with
  | some room => (s, room)
  | none =>
    let fresh : Room := ⟨none, [], .waiting⟩
    (setR s code fresh, fresh)

/-- `buildRoleSummary(players)`: the moderator cheat sheet. -/
def buildRoleSummary (players : List Player) : List (String × Option String) :=
  players.map (fun p => (p.name, p.role))

/-- The default display name `Player_` + first 4 characters of the id,
used when the supplied name is absent or falsy (empty). -/
def joinName (nameOpt : Option String) (sid : String) : String :=
  match nameOpt with
  | some n => if n == "" then "Player_" ++ sid.take 4 else n
  | none => "Player_" ++ sid.take 4

/-- Error text for a join to an unknown code. -/
def roomNotFoundMsg (code : String) : String :=
  "Phòng \"" ++ code ++ "\" không tồn tại!"

/-- Error text for a role/player count mismatch, containing both counts. -/
def mismatchMsg (k n : Nat) : String :=
  "Không khớp! Roles: " ++ toString k ++ ", Players: " ++ toString n

def assignSuccessMsg : String := "Đã chia bài thành công!"

def resetSuccessMsg : String := "Đã reset! Sẵn sàng chia lại."

def kickedMsg : String := "Bạn đã bị Quản trò kick khỏi phòng."

/-- Model of JS `String.prototype.toUpperCase()` (character-wise upper-case),
kept kernel-computable. -/
def jsToUpper (s : String) : String := String.mk (s.data.map Char.toUpper)

/-- Model of JS `String.prototype.trim()` (strip whitespace from both ends),
kept kernel-computable. -/
def jsTrim (s : String) : String :=
  String.mk
    (((s.data.dropWhile Char.isWhitespace).reverse.dropWhile Char.isWhitespace).reverse)

/-- One in-place swap of the Fisher–Yates loop (`[a[i], a[j]] = [a[j], a[i]]`);
out-of-range indices leave the list unchanged (never hit by the loop). -/
def listSwap (l : List α) (i j : Nat) : List α :=
  match l.get? i, l.get? j with
  | some a, some b => (l.set i b).set j a
  | _, _ => l

/-- The Fisher–Yates loop `for (i = len-1; i > 0; i--) swap(i, rand(i+1))`,
structurally recursing down the index; `rand i % (i+1)` embeds
`Math.floor(Math.random() * (i + 1))`. -/
def fyLoop (rand : Nat → Nat) : Nat → List α → List α
  | 0, l => l
  | i + 1, l => fyLoop rand i (listSwap l (i + 1) (rand (i + 1) % (i + 2)))

/-- `shuffled = [...selectedRoles]` followed by the Fisher–Yates loop. -/
def fyShuffle (rand : Nat → Nat) (l : List α) : List α :=
  fyLoop rand (l.length - 1) l

/-- Inbound events.  Payload fields are `Option`s so that the missing /
malformed shapes a client can send are representable; `create_room`
carries the code `generateRoomCode` produced, `start_assign_roles`
carries the shuffle's random oracle, and `kick_player` carries whether
the kicked id is a currently connected socket. -/
inductive Event where
  | create_room (sid : String) (code : String)
  | join_room (sid : String) (payload : Option (Option String × Option String))
  | start_assign_roles (sid : String)
      (payload : Option (Option String × Option (List String))) (rand : Nat → Nat)
  | reset_room (sid : String) (payload : Option (Option String))
  | kick_player (sid : String) (payload : Option (Option String × Option String))
      (targetConnected : Bool)
  | disconnect (sid : String)

/-- `cleanupUser(socketId)`: walk every room in insertion order; clear a
matching moderator (with a group notice), filter the socket out of the
players (with count/list notices when something was removed), and drop
rooms left empty and unmoderated. -/
def cleanupUser (sid : String) : Registry → Registry × List Emit
  | [] => ([], [])
  | (code, room) :: rest =>
    let wasMod := room.moderatorId == some sid
    let mod' := if wasMod then none else room.moderatorId
    let modEmits : List Emit :=
      if wasMod then [(.group code, .mod_status_update false)] else []
    let players' := room.players.filter (fun p => p.id != sid)
    let removedEmits : List Emit :=
      if players'.length != room.players.length then
        (Recipient.group code, Msg.player_count_update players'.length) ::
          (match mod' with
           | some m => [(Recipient.conn m, Msg.player_list_update players')]
           | none => [])
      else []
    let (rest', restEmits) := cleanupUser sid rest
    if players'.isEmpty && mod'.isNone then
      (rest', modEmits ++ removedEmits ++ restEmits)
    else
      ((code, { room with moderatorId := mod', players := players' }) :: rest',
       modEmits ++ removedEmits ++ restEmits)

/-- One handler invocation: the registry after the event together with the
emitted messages in emission order.  `.error ()` marks the spots where the
JS handler would throw a `TypeError` on a malformed payload (destructuring
`undefined`, or calling a method on a missing field) before any mutation. -/
def step (s : Registry) (e : Event) : Except Unit (Registry × List Emit) :=
  match e with
  | .create_room sid code =>
    let (s₁, room) := getRoom s code
    let room' := { room with moderatorId := some sid }
    .ok (setR s₁ code room',
      [(.conn sid, .room_created code),
       (.conn sid, .role_assigned_moderator),
       (.conn sid, .player_list_update room'.players),
       (.conn sid, .init_state true 0)])
  | .join_room sid payload =>
    match payload with
    | none => .error ()
    | some (roomIdOpt, nameOpt) =>
      match roomIdOpt with
      | none => .error ()
      | some roomId =>
        let code := jsTrim (jsToUpper roomId)
        match lookupR s code with
        | none => .ok (s, [(.conn sid, .error_msg (roomNotFoundMsg code))])
        | some room =>
          let isExist := room.players.any (fun p => p.id == sid)
          let players' :=
            if isExist then room.players
            else room.players ++ [⟨sid, joinName nameOpt sid, none⟩]
          let room' := { room with players := players' }
          .ok (setR s code room',
            [(.conn sid, .role_assigned_player code),
             (.group code, .player_count_update players'.length)]
            ++ (match room.moderatorId with
                | some m => [(.conn m, .player_list_update players')]
                | none => [])
            ++ [(.conn sid, .init_state room.moderatorId.isSome players'.length)])
  | .start_assign_roles sid payload rand =>
    match payload with
    | none => .error ()
    | some (roomIdOpt, rolesOpt) =>
      match roomIdOpt with
      | none => .ok (s, [])
      | some roomId =>
        match lookupR s roomId with
        | none => .ok (s, [])
        | some room =>
          if room.moderatorId == some sid then
            match rolesOpt with
            | none => .error ()
            | some selectedRoles =>
              if selectedRoles.length == room.players.length then
                let shuffled := fyShuffle rand selectedRoles
                let players' :=
                  List.zipWith (fun p r => { p with role := some r })
                    room.players shuffled
                let roleEmits : List Emit :=
                  List.zipWith
                    (fun (p : Player) (r : String) =>
                      ((Recipient.conn p.id, Msg.receive_role r) : Emit))
                    room.players shuffled
                let room' := { room with players := players', status := .assigned }
                .ok (setR s roomId room',
                  roleEmits
                  ++ [(.conn sid, .role_summary (buildRoleSummary players')),
                      (.conn sid, .status_msg assignSuccessMsg)])
              else
                .ok (s, [(.conn sid,
                  .error_msg (mismatchMsg selectedRoles.length room.players.length))])
          else .ok (s, [])
  | .reset_room sid payload =>
    match payload with
    | none => .error ()
    | some roomIdOpt =>
      match roomIdOpt with
      | none => .ok (s, [])
      | some roomId =>
        match lookupR s roomId with
        | none => .ok (s, [])
        | some room =>
          if room.moderatorId == some sid then
            let players' := room.players.map (fun p => { p with role := none })
            let room' := { room with players := players', status := .waiting }
            .ok (setR s roomId room',
              [(.group roomId, .room_reset),
               (.conn sid, .player_list_update players'),
               (.conn sid, .player_count_update players'.length),
               (.conn sid, .status_msg resetSuccessMsg)])
          else .ok (s, [])
  | .kick_player sid payload targetConnected =>
    match payload with
    | none => .error ()
    | some (roomIdOpt, playerIdOpt) =>
      match roomIdOpt with
      | none => .ok (s, [])
      | some roomId =>
        match lookupR s roomId with
        | none => .ok (s, [])
        | some room =>
          if room.moderatorId == some sid then
            let players' :=
              match playerIdOpt with
              | some pid => room.players.filter (fun p => p.id != pid)
              | none => room.players
            let room' := { room with players := players' }
            let targetEmits : List Emit :=
              match playerIdOpt with
              | some pid =>
                if targetConnected then
                  [(.conn pid, .kicked), (.conn pid, .error_msg kickedMsg)]
                else []
              | none => []
            .ok (setR s roomId room',
              [(.group roomId, .player_count_update players'.length),
               (.conn sid, .player_list_update players')] ++ targetEmits)
          else .ok (s, [])
  | .disconnect sid => .ok (cleanupUser sid s)

/-! ### Registry lemmas -/

theorem lookupR_nil (code : String) : lookupR [] code = none := rfl

theorem lookupR_cons (c : String) (r : Room) (rest : Registry) (code : String) :
    lookupR ((c, r) :: rest) code =
      if c = code then some r else lookupR rest code := by
  by_cases h : c = code
  · simp [lookupR, List.find?_cons, h]
  · simp [lookupR, List.find?_cons, beq_eq_false_iff_ne.mpr h, h]

theorem setR_cons (c : String) (r : Room) (rest : Registry) (code : String)
    (room : Room) :
    setR ((c, r) :: rest) code room =
      if c = code then (code, room) :: rest else (c, r) :: setR rest code room := by
  by_cases h : c = code <;> simp [setR, h]

theorem mem_setR_self (s : Registry) (code : String) (room : Room) :
    (code, room) ∈ setR s code room := by
  induction s with
  | nil => simp [setR]
  | cons cr rest ih =>
    obtain ⟨c, r⟩ := cr
    rw [setR_cons]
    by_cases h : c = code
    · simp [h]
    · simp only [if_neg h]
      exact List.mem_cons_of_mem _ ih

theorem mem_setR (s : Registry) (code : String) (room : Room) (x : String × Room)
    (hx : x ∈ setR s code room) : x = (code, room) ∨ x ∈ s := by
  induction s with
  | nil => simpa [setR] using hx
  | cons cr rest ih =>
    obtain ⟨c, r⟩ := cr
    rw [setR_cons] at hx
    by_cases h : c = code
    · rw [if_pos h] at hx
      rcases List.mem_cons.mp hx with h1 | h2
      · exact Or.inl h1
      · exact Or.inr (List.mem_cons_of_mem _ h2)
    · rw [if_neg h] at hx
      rcases List.mem_cons.mp hx with h1 | h2
      · exact Or.inr (h1 ▸ List.mem_cons_self _ _)
      · rcases ih h2 with h3 | h4
        · exact Or.inl h3
        · exact Or.inr (List.mem_cons_of_mem _ h4)

theorem setR_self_of_lookup (s : Registry) (code : String) (room : Room)
    (h : lookupR s code = some room) : setR s code room = s := by
  induction s with
  | nil => simp [lookupR_nil] at h
  | cons cr rest ih =>
    obtain ⟨c, r⟩ := cr
    rw [lookupR_cons] at h
    rw [setR_cons]
    by_cases hc : c = code
    · rw [if_pos hc] at h
      rw [if_pos hc, hc, Option.some_inj.mp h]
    · rw [if_neg hc] at h
      rw [if_neg hc, ih h]

theorem lookupR_setR_self (s : Registry) (code : String) (room : Room) :
    lookupR (setR s code room) code = some room := by
  induction s with
  | nil => simp [setR, lookupR_cons, lookupR_nil]
  | cons cr rest ih =>
    obtain ⟨c, r⟩ := cr
    rw [setR_cons]
    by_cases h : c = code
    · rw [if_pos h, lookupR_cons, if_pos rfl]
    · rw [if_neg h, lookupR_cons, if_neg h]
      exact ih

theorem lookupR_setR_ne (s : Registry) (code c : String) (room : Room)
    (h : c ≠ code) : lookupR (setR s code room) c = lookupR s c := by
  induction s with
  | nil =>
    simp only [setR, lookupR_cons, lookupR_nil]
    rw [if_neg (fun hcc => h hcc.symm)]
  | cons cr rest ih =>
    obtain ⟨c', r⟩ := cr
    rw [setR_cons]
    by_cases hc : c' = code
    · rw [if_pos hc, lookupR_cons, lookupR_cons, if_neg (fun hcc => h hcc.symm),
        if_neg (fun hcc : c' = c => h (hcc ▸ hc))]
    · rw [if_neg hc, lookupR_cons, lookupR_cons]
      by_cases hcc : c' = c
      · rw [if_pos hcc, if_pos hcc]
      · rw [if_neg hcc, if_neg hcc]
        exact ih

theorem lookupR_mem (s : Registry) (code : String) (room : Room)
    (h : lookupR s code = some room) : (code, room) ∈ s := by
  induction s with
  | nil => simp [lookupR_nil] at h
  | cons cr rest ih =>
    obtain ⟨c, r⟩ := cr
    rw [lookupR_cons] at h
    by_cases hc : c = code
    · rw [if_pos hc] at h
      rw [hc, Option.some_inj.mp h]
      exact List.mem_cons_self _ _
    · rw [if_neg hc] at h
      exact List.mem_cons_of_mem _ (ih h)

/-! ### Fisher–Yates permutation lemmas -/

theorem cons_get_set_perm (t : List α) (m : Nat) (hm : m < t.length) (x : α) :
    List.Perm (t.get ⟨m, hm⟩ :: t.set m x) (x :: t) := by
  induction t generalizing m with
  | nil => exact absurd hm (Nat.not_lt_zero m)
  | cons y u ih =>
    cases m with
    | zero => simpa using List.Perm.swap x y u
    | succ k =>
      have hk : k < u.length := Nat.lt_of_succ_lt_succ hm
      have h1 : List.Perm (u.get ⟨k, hk⟩ :: y :: u.set k x)
          (y :: u.get ⟨k, hk⟩ :: u.set k x) := List.Perm.swap y (u.get ⟨k, hk⟩) _
      have h2 : List.Perm (y :: u.get ⟨k, hk⟩ :: u.set k x) (y :: x :: u) :=
        List.Perm.cons y (ih k hk)
      have h3 : List.Perm (y :: x :: u) (x :: y :: u) := List.Perm.swap x y u
      simpa using (h1.trans h2).trans h3

theorem set_set_perm (l : List α) (i j : Nat) (hi : i < l.length) (hj : j < l.length) :
    List.Perm ((l.set i (l.get ⟨j, hj⟩)).set j (l.get ⟨i, hi⟩)) l := by
  induction l generalizing i j with
  | nil => exact absurd hi (Nat.not_lt_zero i)
  | cons x t ih =>
    cases i with
    | zero =>
      cases j with
      | zero => simp
      | succ m =>
        have hm : m < t.length := Nat.lt_of_succ_lt_succ hj
        simpa using cons_get_set_perm t m hm x
    | succ n =>
      cases j with
      | zero =>
        have hn : n < t.length := Nat.lt_of_succ_lt_succ hi
        simpa using cons_get_set_perm t n hn x
      | succ m =>
        have hn : n < t.length := Nat.lt_of_succ_lt_succ hi
        have hm : m < t.length := Nat.lt_of_succ_lt_succ hj
        simpa using List.Perm.cons x (ih n m hn hm)

theorem listSwap_perm (l : List α) (i j : Nat) : List.Perm (listSwap l i j) l := by
  unfold listSwap
  cases hi : l.get? i with
  | none => exact List.Perm.refl l
  | some a =>
    cases hj : l.get? j with
    | none => exact List.Perm.refl l
    | some b =>
      have hi' : i < l.length := by
        by_contra hcon
        rw [List.get?_eq_none.mpr (Nat.le_of_not_lt hcon)] at hi
        exact Option.noConfusion hi
      have hj' : j < l.length := by
        by_contra hcon
        rw [List.get?_eq_none.mpr (Nat.le_of_not_lt hcon)] at hj
        exact Option.noConfusion hj
      have ha : a = l.get ⟨i, hi'⟩ := by
        rw [List.get?_eq_get hi'] at hi
        exact (Option.some_inj.mp hi).symm
      have hb : b = l.get ⟨j, hj'⟩ := by
        rw [List.get?_eq_get hj'] at hj
        exact (Option.some_inj.mp hj).symm
      rw [ha, hb]
      exact set_set_perm l i j hi' hj'

theorem fyLoop_perm (rand : Nat → Nat) (i : Nat) (l : List α) :
    List.Perm (fyLoop rand i l) l := by
  induction i generalizing l with
  | zero => exact List.Perm.refl l
  | succ n ih =>
    exact List.Perm.trans (ih (listSwap l (n + 1) (rand (n + 1) % (n + 2))))
      (listSwap_perm l (n + 1) (rand (n + 1) % (n + 2)))

theorem fyShuffle_perm (rand : Nat → Nat) (l : List α) :
    List.Perm (fyShuffle rand l) l :=
  fyLoop_perm rand (l.length - 1) l

theorem fyShuffle_length (rand : Nat → Nat) (l : List α) :
    (fyShuffle rand l).length = l.length :=
  (fyShuffle_perm rand l).length_eq

/-! ### zipWith helper lemmas for role assignment -/

theorem zipWith_role_map_role : ∀ (ps : List Player) (rs : List String),
    ps.length = rs.length →
    (List.zipWith (fun p r => { p with role := some r }) ps rs).map Player.role
      = rs.map some
  | [], [], _ => rfl
  | [], _ :: _, h => by simp at h
  | _ :: _, [], h => by simp at h
  | p :: ps, r :: rs, h => by
    simp only [List.zipWith_cons_cons, List.map_cons, List.cons.injEq]
    exact ⟨trivial, zipWith_role_map_role ps rs (by simpa using h)⟩

theorem zipWith_role_map_id : ∀ (ps : List Player) (rs : List String),
    ps.length = rs.length →
    (List.zipWith (fun p r => { p with role := some r }) ps rs).map Player.id
      = ps.map Player.id
  | [], [], _ => rfl
  | [], _ :: _, h => by simp at h
  | _ :: _, [], h => by simp at h
  | p :: ps, r :: rs, h => by
    simp only [List.zipWith_cons_cons, List.map_cons, List.cons.injEq]
    exact ⟨trivial, zipWith_role_map_id ps rs (by simpa using h)⟩

theorem zipWith_role_getD (d : Player) : ∀ (ps : List Player) (rs : List String)
    (i : Nat), i < ps.length → i < rs.length →
    ((List.zipWith (fun p r => { p with role := some r }) ps rs).getD i d).role
      = some (rs.getD i "")
  | [], _, i, hi, _ => by simp at hi
  | _ :: _, [], i, _, hj => by simp at hj
  | p :: ps, r :: rs, 0, _, _ => rfl
  | p :: ps, r :: rs, i + 1, hi, hj => by
    simp only [List.zipWith_cons_cons, List.getD_cons_succ]
    exact zipWith_role_getD d ps rs i (by simpa using hi) (by simpa using hj)

/-! ### C1: role distribution -/

/-- C1: after a successful `start_assign_roles` on a room with N players and a
role list of length N, every player holds exactly one role, the multiset of
assigned roles equals the multiset of supplied roles, and the i-th element of
the shuffled permutation is assigned to players[i] in current player order
(role distribution is a bijection from supplied roles to players). -/
theorem assign_roles_bijection (s : Registry) (sid roomId : String)
    (selectedRoles : List String) (rand : Nat → Nat) (room : Room)
    (hlook : lookupR s roomId = some room)
    (hmod : room.moderatorId = some sid)
    (hlen : selectedRoles.length = room.players.length) :
    ∃ players' : List Player,
      step s (.start_assign_roles sid (some (some roomId, some selectedRoles)) rand) =
        .ok (setR s roomId { room with players := players', status := .assigned },
          (List.zipWith (fun (p : Player) (r : String) =>
              ((Recipient.conn p.id, Msg.receive_role r) : Emit))
            room.players (fyShuffle rand selectedRoles))
          ++ [(.conn sid, .role_summary (buildRoleSummary players')),
              (.conn sid, .status_msg assignSuccessMsg)])
      ∧ players' = List.zipWith (fun p r => { p with role := some r })
          room.players (fyShuffle rand selectedRoles)
      ∧ List.Perm (fyShuffle rand selectedRoles) selectedRoles
      ∧ players'.map Player.role = (fyShuffle rand selectedRoles).map some
      ∧ List.Perm (players'.map Player.role) (selectedRoles.map some)
      ∧ (∀ p ∈ players', p.role.isSome)
      ∧ players'.map Player.id = room.players.map Player.id
      ∧ (∀ i, i < players'.length →
          (players'.getD i ⟨"", "", none⟩).role
            = some ((fyShuffle rand selectedRoles).getD i "")) := by
  have hperm : List.Perm (fyShuffle rand selectedRoles) selectedRoles :=
    fyShuffle_perm rand selectedRoles
  have hslen : room.players.length = (fyShuffle rand selectedRoles).length := by
    rw [fyShuffle_length, hlen]
  refine ⟨List.zipWith (fun p r => { p with role := some r })
    room.players (fyShuffle rand selectedRoles), ?_, rfl, hperm, ?_, ?_, ?_, ?_, ?_⟩
  · simp only [step, hlook, hmod, beq_self_eq_true, if_true, hlen, beq_iff_eq]
  · exact zipWith_role_map_role room.players (fyShuffle rand selectedRoles) hslen
  · rw [zipWith_role_map_role room.players (fyShuffle rand selectedRoles) hslen]
    exact hperm.map some
  · intro p hp
    have hmem : p.role ∈ (List.zipWith (fun p r => { p with role := some r })
        room.players (fyShuffle rand selectedRoles)).map Player.role :=
      List.mem_map_of_mem Player.role hp
    rw [zipWith_role_map_role room.players (fyShuffle rand selectedRoles) hslen] at hmem
    obtain ⟨r, -, hr⟩ := List.mem_map.mp hmem
    rw [← hr]
    rfl
  · exact zipWith_role_map_id room.players (fyShuffle rand selectedRoles) hslen
  · intro i hi
    rw [List.length_zipWith] at hi
    exact zipWith_role_getD ⟨"", "", none⟩ room.players (fyShuffle rand selectedRoles) i
      (Nat.lt_of_lt_of_le hi (Nat.min_le_left _ _))
      (Nat.lt_of_lt_of_le hi (Nat.min_le_right _ _))

/-- Closed witness for C1: a two-player room, the identity random oracle. -/
theorem assign_roles_bijection_witness :
    ∃ players' : List Player,
      step [("ROOM", ⟨some "mod", [⟨"p1", "Ana", none⟩, ⟨"p2", "Bob", none⟩],
          .waiting⟩)]
        (.start_assign_roles "mod" (some (some "ROOM", some ["Wolf", "Villager"]))
          (fun _ => 0)) =
        .ok (setR [("ROOM", ⟨some "mod", [⟨"p1", "Ana", none⟩, ⟨"p2", "Bob", none⟩],
            .waiting⟩)] "ROOM"
            { moderatorId := some "mod", players := players', status := .assigned },
          (List.zipWith (fun (p : Player) (r : String) =>
              ((Recipient.conn p.id, Msg.receive_role r) : Emit))
            ([⟨"p1", "Ana", none⟩, ⟨"p2", "Bob", none⟩] : List Player)
            (fyShuffle (fun _ => 0) ["Wolf", "Villager"]))
          ++ [(.conn "mod", .role_summary (buildRoleSummary players')),
              (.conn "mod", .status_msg assignSuccessMsg)])
      ∧ players' = List.zipWith
          (fun (p : Player) (r : String) => { p with role := some r })
          ([⟨"p1", "Ana", none⟩, ⟨"p2", "Bob", none⟩] : List Player)
          (fyShuffle (fun _ => 0) ["Wolf", "Villager"])
      ∧ List.Perm (fyShuffle (fun _ => 0) ["Wolf", "Villager"]) ["Wolf", "Villager"]
      ∧ players'.map Player.role
          = (fyShuffle (fun _ => 0) ["Wolf", "Villager"]).map some
      ∧ List.Perm (players'.map Player.role) (["Wolf", "Villager"].map some)
      ∧ (∀ p ∈ players', p.role.isSome)
      ∧ players'.map Player.id
          = ([⟨"p1", "Ana", none⟩, ⟨"p2", "Bob", none⟩] : List Player).map Player.id
      ∧ (∀ i, i < players'.length →
          (players'.getD i ⟨"", "", none⟩).role
            = some ((fyShuffle (fun _ => 0) ["Wolf", "Villager"]).getD i "")) :=
  assign_roles_bijection
    [("ROOM", ⟨some "mod", [⟨"p1", "Ana", none⟩, ⟨"p2", "Bob", none⟩], .waiting⟩)]
    "mod" "ROOM" ["Wolf", "Villager"] (fun _ => 0)
    ⟨some "mod", [⟨"p1", "Ana", none⟩, ⟨"p2", "Bob", none⟩], .waiting⟩
    (by decide) (by decide) (by decide)

/-! ### C2: room code generation -/

theorem charAtRandom_mem (r : Nat) : charAtRandom r ∈ roomCodeChars := by
  have hlt : r % roomCodeChars.length < roomCodeChars.length :=
    Nat.mod_lt _ (by decide)
  unfold charAtRandom
  rw [List.getD_eq_getElem roomCodeChars 'A' hlt]
  exact List.getElem_mem hlt

/-- C2 counterexample: the room-code alphabet of `generateRoomCode`
(uppercase letters and digits excluding I, O, 0, 1) has 32 symbols, not the
33 claimed. -/
theorem roomCodeChars_not_33 : ¬roomCodeChars.length = 33 := by decide

/-- C2 (amended to the actual 32-symbol alphabet): every code returned by
`generateRoomCode` is exactly 4 symbols long, each symbol is drawn from the
alphabet of uppercase letters and digits excluding I, O, 0 and 1 (which has
32 symbols), and the returned code does not collide with any live room. -/
theorem generateRoomCode_spec (rooms : Registry) (rs : List (Nat → Nat))
    (code : String) (h : generateRoomCode rooms rs = some code) :
    code.length = 4
    ∧ (∀ ch ∈ code.toList, ch ∈ roomCodeChars)
    ∧ roomCodeChars.length = 32
    ∧ lookupR rooms code = none := by
  induction rs with
  | nil => simp [generateRoomCode] at h
  | cons r rest ih =>
    simp only [generateRoomCode] at h
    by_cases hcoll : (lookupR rooms (codeAttempt r)).isSome
    · rw [if_pos hcoll] at h
      exact ih h
    · rw [if_neg hcoll] at h
      have hcode : code = codeAttempt r := (Option.some_inj.mp h).symm
      subst hcode
      refine ⟨?_, ?_, by decide, Option.not_isSome_iff_eq_none.mp hcoll⟩
      · rfl
      · intro ch hch
        have : ch ∈ (List.range 4).map (fun k => charAtRandom (r k)) := hch
        obtain ⟨k, -, hk⟩ := List.mem_map.mp this
        rw [← hk]
        exact charAtRandom_mem (r k)

/-- Closed witness for C2: one attempt on an empty registry yields "AAAA". -/
theorem generateRoomCode_spec_witness :
    ("AAAA" : String).length = 4
    ∧ (∀ ch ∈ ("AAAA" : String).toList, ch ∈ roomCodeChars)
    ∧ roomCodeChars.length = 32
    ∧ lookupR [] "AAAA" = none :=
  generateRoomCode_spec [] [fun _ => 0] "AAAA" (by decide)

/-! ### C3: role/player count mismatch guard -/

/-- C3: a `start_assign_roles` by the room's moderator with K ≠ N roles leaves
the whole registry unchanged and emits exactly one error message, to the
moderator only, whose text contains both counts. -/
theorem mismatch_guard (s : Registry) (sid roomId : String)
    (selectedRoles : List String) (rand : Nat → Nat) (room : Room)
    (hlook : lookupR s roomId = some room)
    (hmod : room.moderatorId = some sid)
    (hlen : selectedRoles.length ≠ room.players.length) :
    step s (.start_assign_roles sid (some (some roomId, some selectedRoles)) rand) =
      .ok (s, [(.conn sid,
        .error_msg (mismatchMsg selectedRoles.length room.players.length))])
    ∧ ∃ pre mid : String,
        mismatchMsg selectedRoles.length room.players.length =
          pre ++ toString selectedRoles.length ++ mid ++ toString room.players.length := by
  constructor
  · simp only [step, hlook, hmod, beq_self_eq_true, if_true,
      beq_eq_false_iff_ne.mpr hlen, Bool.false_eq_true, if_false]
  · exact ⟨"Không khớp! Roles: ", ", Players: ", rfl⟩

/-- Closed witness for C3: one player, two roles. -/
theorem mismatch_guard_witness :
    step [("ROOM", ⟨some "mod", [⟨"p1", "Ana", none⟩], .waiting⟩)]
      (.start_assign_roles "mod" (some (some "ROOM", some ["Wolf", "Villager"]))
        (fun _ => 0)) =
      .ok ([("ROOM", ⟨some "mod", [⟨"p1", "Ana", none⟩], .waiting⟩)],
        [(.conn "mod", .error_msg (mismatchMsg 2 1))])
    ∧ ∃ pre mid : String,
        mismatchMsg 2 1 = pre ++ toString 2 ++ mid ++ toString 1 :=
  mismatch_guard [("ROOM", ⟨some "mod", [⟨"p1", "Ana", none⟩], .waiting⟩)]
    "mod" "ROOM" ["Wolf", "Villager"] (fun _ => 0)
    ⟨some "mod", [⟨"p1", "Ana", none⟩], .waiting⟩ (by decide) (by decide) (by decide)

/-! ### C8: unauthorized moderator-only actions are silent no-ops -/

/-- C8: a `start_assign_roles`, `reset_room` or `kick_player` issued by a
connection that is not the room's moderator changes nothing and emits no
message of any kind, not even an error. -/
theorem unauthorized_silent (s : Registry) (sid roomId : String) (room : Room)
    (rolesOpt : Option (List String)) (rand : Nat → Nat)
    (playerIdOpt : Option String) (targetConnected : Bool)
    (hlook : lookupR s roomId = some room)
    (hmod : room.moderatorId ≠ some sid) :
    step s (.start_assign_roles sid (some (some roomId, rolesOpt)) rand) = .ok (s, [])
    ∧ step s (.reset_room sid (some (some roomId))) = .ok (s, [])
    ∧ step s (.kick_player sid (some (some roomId, playerIdOpt)) targetConnected)
        = .ok (s, []) := by
  have hbeq : (room.moderatorId == some sid) = false := beq_eq_false_iff_ne.mpr hmod
  refine ⟨?_, ?_, ?_⟩ <;>
    simp only [step, hlook, hbeq, Bool.false_eq_true, if_false]

/-- Closed witness for C8: a non-moderator connection "eve". -/
theorem unauthorized_silent_witness :
    step [("ROOM", ⟨some "mod", [⟨"p1", "Ana", none⟩], .waiting⟩)]
      (.start_assign_roles "eve" (some (some "ROOM", some ["Wolf"])) (fun _ => 0))
        = .ok ([("ROOM", ⟨some "mod", [⟨"p1", "Ana", none⟩], .waiting⟩)], [])
    ∧ step [("ROOM", ⟨some "mod", [⟨"p1", "Ana", none⟩], .waiting⟩)]
        (.reset_room "eve" (some (some "ROOM")))
        = .ok ([("ROOM", ⟨some "mod", [⟨"p1", "Ana", none⟩], .waiting⟩)], [])
    ∧ step [("ROOM", ⟨some "mod", [⟨"p1", "Ana", none⟩], .waiting⟩)]
        (.kick_player "eve" (some (some "ROOM", some "p1")) true)
        = .ok ([("ROOM", ⟨some "mod", [⟨"p1", "Ana", none⟩], .waiting⟩)], []) :=
  unauthorized_silent [("ROOM", ⟨some "mod", [⟨"p1", "Ana", none⟩], .waiting⟩)]
    "eve" "ROOM" ⟨some "mod", [⟨"p1", "Ana", none⟩], .waiting⟩
    (some ["Wolf"]) (fun _ => 0) (some "p1") true (by decide) (by decide)

/-! ### C10: re-join is a pure re-broadcast -/

/-- C10: when a connection already present in a room's players sends
`join_room` again for that room, with any (possibly different or absent)
name, the registry — in particular the stored player record, its name and
role — is unchanged, and only the role_assigned / player_count_update /
player_list_update (moderator present) / init_state broadcasts are
re-emitted. -/
theorem rejoin_frame (s : Registry) (sid roomId : String)
    (nameOpt : Option String) (room : Room)
    (hlook : lookupR s (jsTrim (jsToUpper roomId)) = some room)
    (hexist : room.players.any (fun p => p.id == sid) = true) :
    step s (.join_room sid (some (some roomId, nameOpt))) =
      .ok (s,
        [(.conn sid, .role_assigned_player (jsTrim (jsToUpper roomId))),
         (.group (jsTrim (jsToUpper roomId)), .player_count_update room.players.length)]
        ++ (match room.moderatorId with
            | some m => [(.conn m, .player_list_update room.players)]
            | none => [])
        ++ [(.conn sid, .init_state room.moderatorId.isSome room.players.length)]) := by
  simp only [step, hlook, hexist, if_true]
  rw [show ({ room with players := room.players } : Room) = room from rfl,
    setR_self_of_lookup s (jsTrim (jsToUpper roomId)) room hlook]

/-- Closed witness for C10: "p1" re-joins with a different name. -/
theorem rejoin_frame_witness :
    step [("ROOM", ⟨some "mod", [⟨"p1", "Ana", none⟩], .waiting⟩)]
      (.join_room "p1" (some (some "room ", some "Zoe"))) =
      .ok ([("ROOM", ⟨some "mod", [⟨"p1", "Ana", none⟩], .waiting⟩)],
        [(.conn "p1", .role_assigned_player (jsTrim (jsToUpper "room "))),
         (.group (jsTrim (jsToUpper "room ")), .player_count_update 1)]
        ++ [(.conn "mod",
            .player_list_update ([⟨"p1", "Ana", none⟩] : List Player))]
        ++ [(.conn "p1", .init_state true 1)]) :=
  rejoin_frame [("ROOM", ⟨some "mod", [⟨"p1", "Ana", none⟩], .waiting⟩)]
    "p1" "room " (some "Zoe") ⟨some "mod", [⟨"p1", "Ana", none⟩], .waiting⟩
    (by decide) (by decide)

/-! ### Characterization of the disconnect sweep -/

/-- The per-room effect of `cleanupUser` on one room: a matching moderator is
cleared, and the socket is removed from the players unconditionally. -/
def cleanRoom (sid : String) (room : Room) : Room :=
  { room with
    moderatorId := if room.moderatorId == some sid then none else room.moderatorId,
    players := room.players.filter (fun p => p.id != sid) }

/-- Whether `cleanupUser` keeps a room: not (empty and unmoderated) after
cleaning. -/
def keepRoom (sid : String) (room : Room) : Bool :=
  !((cleanRoom sid room).players.isEmpty && (cleanRoom sid room).moderatorId.isNone)

/-- The messages `cleanupUser` emits for one room. -/
def roomEmits (sid code : String) (room : Room) : List Emit :=
  (if room.moderatorId == some sid
   then [(Recipient.group code, Msg.mod_status_update false)] else [])
  ++ (if (cleanRoom sid room).players.length != room.players.length
      then (Recipient.group code,
          Msg.player_count_update (cleanRoom sid room).players.length) ::
        (match (cleanRoom sid room).moderatorId with
         | some m => [(Recipient.conn m,
             Msg.player_list_update (cleanRoom sid room).players)]
         | none => [])
      else [])

theorem cleanupUser_eq (sid : String) : ∀ s : Registry,
    cleanupUser sid s =
      ((s.filter (fun cr => keepRoom sid cr.2)).map
          (fun cr => (cr.1, cleanRoom sid cr.2)),
        s.flatMap (fun cr => roomEmits sid cr.1 cr.2))
  | [] => rfl
  | (code, room) :: rest => by
    have ih := cleanupUser_eq sid rest
    by_cases hkeep : keepRoom sid room
    · have hcond : ((cleanRoom sid room).players.isEmpty
          && (cleanRoom sid room).moderatorId.isNone) = false := by
        rw [keepRoom] at hkeep
        exact (Bool.not_eq_true' _).mp hkeep
      simp only [cleanRoom] at hcond
      simp only [cleanupUser, ih, List.filter_cons, hkeep, if_true,
        List.flatMap_cons, List.map_cons, roomEmits, cleanRoom, hcond,
        Bool.false_eq_true, if_false, List.append_assoc]
    · have hcond : ((cleanRoom sid room).players.isEmpty
          && (cleanRoom sid room).moderatorId.isNone) = true := by
        cases hX : ((cleanRoom sid room).players.isEmpty
            && (cleanRoom sid room).moderatorId.isNone) with
        | true => rfl
        | false => exact absurd (by rw [keepRoom, hX]; rfl) hkeep
      have hkeep' : keepRoom sid room = false := by
        rw [keepRoom, hcond]
        rfl
      simp only [cleanRoom] at hcond
      simp only [cleanupUser, ih, List.filter_cons, hkeep', Bool.false_eq_true,
        if_false, List.flatMap_cons, List.map_cons, roomEmits, cleanRoom, hcond,
        if_true, List.append_assoc]

theorem setR_setR (s : Registry) (code : String) (a b : Room) :
    setR (setR s code a) code b = setR s code b := by
  induction s with
  | nil => simp [setR]
  | cons cr rest ih =>
    obtain ⟨c, r⟩ := cr
    by_cases h : c = code
    · rw [setR_cons, if_pos h, setR_cons, if_pos rfl, setR_cons, if_pos h]
    · rw [setR_cons, if_neg h, setR_cons, if_neg h, setR_cons, if_neg h, ih]

/-- Complete case analysis of a non-throwing handler invocation: every
successful `step` is one of the nine listed outcomes. -/
theorem step_cases (s : Registry) (e : Event) (s' : Registry) (emits : List Emit)
    (hstep : step s e = .ok (s', emits)) :
    (∃ sid code room,
        e = .create_room sid code
        ∧ (lookupR s code = some room
           ∨ (lookupR s code = none ∧ room = ⟨none, [], .waiting⟩))
        ∧ s' = setR s code { room with moderatorId := some sid }
        ∧ emits = [(.conn sid, .room_created code),
            (.conn sid, .role_assigned_moderator),
            (.conn sid, .player_list_update room.players),
            (.conn sid, .init_state true 0)])
    ∨ (∃ sid roomId nameOpt,
        e = .join_room sid (some (some roomId, nameOpt))
        ∧ lookupR s (jsTrim (jsToUpper roomId)) = none
        ∧ s' = s
        ∧ emits = [(.conn sid,
            .error_msg (roomNotFoundMsg (jsTrim (jsToUpper roomId))))])
    ∨ (∃ sid roomId nameOpt room players',
        e = .join_room sid (some (some roomId, nameOpt))
        ∧ lookupR s (jsTrim (jsToUpper roomId)) = some room
        ∧ ((room.players.any (fun p => p.id == sid) = true
            ∧ players' = room.players)
           ∨ (room.players.any (fun p => p.id == sid) = false
              ∧ players' = room.players ++ [⟨sid, joinName nameOpt sid, none⟩]))
        ∧ s' = setR s (jsTrim (jsToUpper roomId)) { room with players := players' }
        ∧ emits = [(.conn sid, .role_assigned_player (jsTrim (jsToUpper roomId))),
            (.group (jsTrim (jsToUpper roomId)),
              .player_count_update players'.length)]
            ++ (match room.moderatorId with
                | some m => [(.conn m, .player_list_update players')]
                | none => [])
            ++ [(.conn sid, .init_state room.moderatorId.isSome players'.length)])
    ∨ (s' = s ∧ emits = [])
    ∨ (∃ sid roomId selectedRoles rand room,
        e = .start_assign_roles sid (some (some roomId, some selectedRoles)) rand
        ∧ lookupR s roomId = some room ∧ room.moderatorId = some sid
        ∧ selectedRoles.length ≠ room.players.length
        ∧ s' = s
        ∧ emits = [(.conn sid,
            .error_msg (mismatchMsg selectedRoles.length room.players.length))])
    ∨ (∃ sid roomId selectedRoles rand room,
        e = .start_assign_roles sid (some (some roomId, some selectedRoles)) rand
        ∧ lookupR s roomId = some room ∧ room.moderatorId = some sid
        ∧ selectedRoles.length = room.players.length
        ∧ s' = setR s roomId { room with
            players := List.zipWith (fun p r => { p with role := some r })
              room.players (fyShuffle rand selectedRoles),
            status := .assigned }
        ∧ emits = (List.zipWith (fun (p : Player) (r : String) =>
              ((Recipient.conn p.id, Msg.receive_role r) : Emit)) room.players
              (fyShuffle rand selectedRoles))
            ++ [(.conn sid, .role_summary (buildRoleSummary
                  (List.zipWith (fun p r => { p with role := some r })
                    room.players (fyShuffle rand selectedRoles)))),
                (.conn sid, .status_msg assignSuccessMsg)])
    ∨ (∃ sid roomId room,
        e = .reset_room sid (some (some roomId))
        ∧ lookupR s roomId = some room ∧ room.moderatorId = some sid
        ∧ s' = setR s roomId { room with
            players := room.players.map (fun p => { p with role := none }),
            status := .waiting }
        ∧ emits = [(.group roomId, .room_reset),
            (.conn sid, .player_list_update
              (room.players.map (fun p => { p with role := none }))),
            (.conn sid, .player_count_update
              (room.players.map (fun p => { p with role := none })).length),
            (.conn sid, .status_msg resetSuccessMsg)])
    ∨ (∃ sid roomId playerIdOpt targetConnected room players',
        e = .kick_player sid (some (some roomId, playerIdOpt)) targetConnected
        ∧ lookupR s roomId = some room ∧ room.moderatorId = some sid
        ∧ players' = (match playerIdOpt with
            | some pid => room.players.filter (fun p => p.id != pid)
            | none => room.players)
        ∧ s' = setR s roomId { room with players := players' }
        ∧ emits = [(.group roomId, .player_count_update players'.length),
            (.conn sid, .player_list_update players')]
            ++ (match playerIdOpt with
                | some pid =>
                  if targetConnected then
                    [(.conn pid, .kicked), (.conn pid, .error_msg kickedMsg)]
                  else []
                | none => []))
    ∨ (∃ sid,
        e = .disconnect sid
        ∧ s' = (s.filter (fun cr => keepRoom sid cr.2)).map
            (fun cr => (cr.1, cleanRoom sid cr.2))
        ∧ emits = s.flatMap (fun cr => roomEmits sid cr.1 cr.2)) := by
  cases e with
  | create_room sid code =>
    refine Or.inl ?_
    cases hlook : lookupR s code with
    | some room =>
      simp only [step, getRoom, hlook] at hstep
      simp only [Except.ok.injEq, Prod.mk.injEq] at hstep
      obtain ⟨h1, h2⟩ := hstep
      subst h1
      subst h2
      exact ⟨sid, code, room, rfl, Or.inl hlook, rfl, rfl⟩
    | none =>
      simp only [step, getRoom, hlook] at hstep
      rw [setR_setR] at hstep
      simp only [Except.ok.injEq, Prod.mk.injEq] at hstep
      obtain ⟨h1, h2⟩ := hstep
      subst h1
      subst h2
      exact ⟨sid, code, ⟨none, [], .waiting⟩, rfl, Or.inr ⟨hlook, rfl⟩, rfl, rfl⟩
  | join_room sid payload =>
    cases payload with
    | none => simp [step] at hstep
    | some p =>
      obtain ⟨roomIdOpt, nameOpt⟩ := p
      cases roomIdOpt with
      | none => simp [step] at hstep
      | some roomId =>
        cases hlook : lookupR s (jsTrim (jsToUpper roomId)) with
        | none =>
          simp only [step, hlook] at hstep
          simp only [Except.ok.injEq, Prod.mk.injEq] at hstep
          obtain ⟨h1, h2⟩ := hstep
          subst h1
          subst h2
          exact Or.inr (Or.inl ⟨sid, roomId, nameOpt, rfl, hlook, rfl, rfl⟩)
        | some room =>
          simp only [step, hlook] at hstep
          by_cases hex : room.players.any (fun p => p.id == sid) = true
          · rw [if_pos hex] at hstep
            simp only [Except.ok.injEq, Prod.mk.injEq] at hstep
            obtain ⟨h1, h2⟩ := hstep
            subst h1
            subst h2
            exact Or.inr (Or.inr (Or.inl ⟨sid, roomId, nameOpt, room,
              room.players, rfl, hlook, Or.inl ⟨hex, rfl⟩, rfl, rfl⟩))
          · rw [if_neg hex] at hstep
            simp only [Except.ok.injEq, Prod.mk.injEq] at hstep
            obtain ⟨h1, h2⟩ := hstep
            subst h1
            subst h2
            exact Or.inr (Or.inr (Or.inl ⟨sid, roomId, nameOpt, room,
              room.players ++ [⟨sid, joinName nameOpt sid, none⟩], rfl, hlook,
              Or.inr ⟨Bool.not_eq_true _ ▸ hex, rfl⟩, rfl, rfl⟩))
  | start_assign_roles sid payload rand =>
    cases payload with
    | none => simp [step] at hstep
    | some p =>
      obtain ⟨roomIdOpt, rolesOpt⟩ := p
      cases roomIdOpt with
      | none =>
        simp only [step, Except.ok.injEq, Prod.mk.injEq] at hstep
        obtain ⟨h1, h2⟩ := hstep
        subst h1
        subst h2
        exact Or.inr (Or.inr (Or.inr (Or.inl ⟨rfl, rfl⟩)))
      | some roomId =>
        cases hlook : lookupR s roomId with
        | none =>
          simp only [step, hlook, Except.ok.injEq, Prod.mk.injEq] at hstep
          obtain ⟨h1, h2⟩ := hstep
          subst h1
          subst h2
          exact Or.inr (Or.inr (Or.inr (Or.inl ⟨rfl, rfl⟩)))
        | some room =>
          by_cases hmod : (room.moderatorId == some sid) = true
          · cases rolesOpt with
            | none => simp [step, hlook, hmod] at hstep
            | some selectedRoles =>
              by_cases hlen : (selectedRoles.length == room.players.length) = true
              · simp only [step, hlook] at hstep
                rw [if_pos hmod, if_pos hlen] at hstep
                simp only [Except.ok.injEq, Prod.mk.injEq] at hstep
                obtain ⟨h1, h2⟩ := hstep
                subst h1
                subst h2
                exact Or.inr (Or.inr (Or.inr (Or.inr (Or.inr (Or.inl
                  ⟨sid, roomId, selectedRoles, rand, room, rfl, hlook,
                   beq_iff_eq.mp hmod, beq_iff_eq.mp hlen,
                   rfl, rfl⟩)))))
              · simp only [step, hlook] at hstep
                rw [if_pos hmod, if_neg hlen] at hstep
                simp only [Except.ok.injEq, Prod.mk.injEq] at hstep
                obtain ⟨h1, h2⟩ := hstep
                subst h1
                subst h2
                exact Or.inr (Or.inr (Or.inr (Or.inr (Or.inl
                  ⟨sid, roomId, selectedRoles, rand, room, rfl, hlook,
                   beq_iff_eq.mp hmod, fun hc => hlen (beq_iff_eq.mpr hc),
                   rfl, rfl⟩))))
          · simp only [step, hlook] at hstep
            rw [if_neg hmod] at hstep
            simp only [Except.ok.injEq, Prod.mk.injEq] at hstep
            obtain ⟨h1, h2⟩ := hstep
            subst h1
            subst h2
            exact Or.inr (Or.inr (Or.inr (Or.inl ⟨rfl, rfl⟩)))
  | reset_room sid payload =>
    cases payload with
    | none => simp [step] at hstep
    | some roomIdOpt =>
      cases roomIdOpt with
      | none =>
        simp only [step, Except.ok.injEq, Prod.mk.injEq] at hstep
        obtain ⟨h1, h2⟩ := hstep
        subst h1
        subst h2
        exact Or.inr (Or.inr (Or.inr (Or.inl ⟨rfl, rfl⟩)))
      | some roomId =>
        cases hlook : lookupR s roomId with
        | none =>
          simp only [step, hlook, Except.ok.injEq, Prod.mk.injEq] at hstep
          obtain ⟨h1, h2⟩ := hstep
          subst h1
          subst h2
          exact Or.inr (Or.inr (Or.inr (Or.inl ⟨rfl, rfl⟩)))
        | some room =>
          by_cases hmod : (room.moderatorId == some sid) = true
          · simp only [step, hlook] at hstep
            rw [if_pos hmod] at hstep
            simp only [Except.ok.injEq, Prod.mk.injEq] at hstep
            obtain ⟨h1, h2⟩ := hstep
            subst h1
            subst h2
            exact Or.inr (Or.inr (Or.inr (Or.inr (Or.inr (Or.inr (Or.inl
              ⟨sid, roomId, room, rfl, hlook, beq_iff_eq.mp hmod, rfl, rfl⟩))))))
          · simp only [step, hlook] at hstep
            rw [if_neg hmod] at hstep
            simp only [Except.ok.injEq, Prod.mk.injEq] at hstep
            obtain ⟨h1, h2⟩ := hstep
            subst h1
            subst h2
            exact Or.inr (Or.inr (Or.inr (Or.inl ⟨rfl, rfl⟩)))
  | kick_player sid payload targetConnected =>
    cases payload with
    | none => simp [step] at hstep
    | some p =>
      obtain ⟨roomIdOpt, playerIdOpt⟩ := p
      cases roomIdOpt with
      | none =>
        simp only [step, Except.ok.injEq, Prod.mk.injEq] at hstep
        obtain ⟨h1, h2⟩ := hstep
        subst h1
        subst h2
        exact Or.inr (Or.inr (Or.inr (Or.inl ⟨rfl, rfl⟩)))
      | some roomId =>
        cases hlook : lookupR s roomId with
        | none =>
          simp only [step, hlook, Except.ok.injEq, Prod.mk.injEq] at hstep
          obtain ⟨h1, h2⟩ := hstep
          subst h1
          subst h2
          exact Or.inr (Or.inr (Or.inr (Or.inl ⟨rfl, rfl⟩)))
        | some room =>
          by_cases hmod : (room.moderatorId == some sid) = true
          · simp only [step, hlook] at hstep
            rw [if_pos hmod] at hstep
            simp only [Except.ok.injEq, Prod.mk.injEq] at hstep
            obtain ⟨h1, h2⟩ := hstep
            subst h1
            subst h2
            exact Or.inr (Or.inr (Or.inr (Or.inr (Or.inr (Or.inr (Or.inr (Or.inl
              ⟨sid, roomId, playerIdOpt, targetConnected, room, _, rfl, hlook,
               beq_iff_eq.mp hmod, rfl, rfl, rfl⟩)))))))
          · simp only [step, hlook] at hstep
            rw [if_neg hmod] at hstep
            simp only [Except.ok.injEq, Prod.mk.injEq] at hstep
            obtain ⟨h1, h2⟩ := hstep
            subst h1
            subst h2
            exact Or.inr (Or.inr (Or.inr (Or.inl ⟨rfl, rfl⟩)))
  | disconnect sid =>
    simp only [step, cleanupUser_eq, Except.ok.injEq, Prod.mk.injEq] at hstep
    obtain ⟨h1, h2⟩ := hstep
    subst h1
    subst h2
    exact Or.inr (Or.inr (Or.inr (Or.inr (Or.inr (Or.inr (Or.inr (Or.inr
      ⟨sid, rfl, rfl, rfl⟩)))))))

theorem lookupR_eq_none_of_keys (t : Registry) (code : String)
    (h : ∀ cr ∈ t, cr.1 ≠ code) : lookupR t code = none := by
  induction t with
  | nil => rfl
  | cons cr rest ih =>
    obtain ⟨c, r⟩ := cr
    rw [lookupR_cons, if_neg (h (c, r) (List.mem_cons_self _ _)),
      ih (fun x hx => h x (List.mem_cons_of_mem _ hx))]

theorem mem_unique_of_nodup_keys (s : Registry)
    (hnd : (s.map Prod.fst).Nodup) (code : String) (a b : Room)
    (ha : (code, a) ∈ s) (hb : (code, b) ∈ s) : a = b := by
  induction s with
  | nil => simp at ha
  | cons cr rest ih =>
    obtain ⟨c, r⟩ := cr
    rw [List.map_cons, List.nodup_cons] at hnd
    rcases List.mem_cons.mp ha with ha1 | ha2
    · injection ha1 with hc1 hr1
      rcases List.mem_cons.mp hb with hb1 | hb2
      · injection hb1 with hc2 hr2
        rw [hr1, hr2]
      · refine absurd ?_ hnd.1
        show c ∈ List.map Prod.fst rest
        rw [← hc1]
        exact List.mem_map_of_mem Prod.fst hb2
    · rcases List.mem_cons.mp hb with hb1 | hb2
      · injection hb1 with hc2 hr2
        refine absurd ?_ hnd.1
        show c ∈ List.map Prod.fst rest
        rw [← hc2]
        exact List.mem_map_of_mem Prod.fst ha2
      · exact ih hnd.2 ha2 hb2

/-! ### C4: no empty, unmoderated room survives any event -/

/-- C4: given the invariant held before, after any successfully handled
event no registry entry has both an empty players list and an absent
moderatorId; in particular a `disconnect` of the last player of a room
without a moderator makes the room's code unresolvable. -/
theorem no_ghost_rooms (s : Registry) (e : Event) (s' : Registry)
    (emits : List Emit)
    (hinv : ∀ cr ∈ s, ¬((cr.2 : Room).players = [] ∧ (cr.2 : Room).moderatorId = none))
    (hstep : step s e = .ok (s', emits)) :
    (∀ cr ∈ s', ¬((cr.2 : Room).players = [] ∧ (cr.2 : Room).moderatorId = none))
    ∧ (∀ sid code room, e = .disconnect sid →
        (s.map Prod.fst).Nodup →
        lookupR s code = some room →
        room.moderatorId = none →
        room.players.filter (fun p => p.id != sid) = [] →
        lookupR s' code = none) := by
  constructor
  · rcases step_cases s e s' emits hstep with
        ⟨sid, code, room, he, hor, hs, hem⟩
      | ⟨sid, roomId, nameOpt, he, hlook, hs, hem⟩
      | ⟨sid, roomId, nameOpt, room, players', he, hlook, hpl, hs, hem⟩
      | ⟨hs, hem⟩
      | ⟨sid, roomId, selectedRoles, rand, room, he, hlook, hmod, hlen, hs, hem⟩
      | ⟨sid, roomId, selectedRoles, rand, room, he, hlook, hmod, hlen, hs, hem⟩
      | ⟨sid, roomId, room, he, hlook, hmod, hs, hem⟩
      | ⟨sid, roomId, playerIdOpt, targetConnected, room, players', he, hlook,
          hmod, hpl, hs, hem⟩
      | ⟨sid, he, hs, hem⟩
    · subst hs
      intro cr hcr
      rcases mem_setR _ _ _ _ hcr with hnew | hold
      · subst hnew
        exact fun hc => Option.noConfusion hc.2
      · exact hinv cr hold
    · subst hs
      exact hinv
    · subst hs
      intro cr hcr
      rcases mem_setR _ _ _ _ hcr with hnew | hold
      · subst hnew
        rcases hpl with ⟨-, hpe⟩ | ⟨-, hpe⟩
        · subst hpe
          exact fun hc => hinv _ (lookupR_mem _ _ _ hlook) ⟨hc.1, hc.2⟩
        · subst hpe
          exact fun hc => by simp at hc
      · exact hinv cr hold
    · subst hs
      exact hinv
    · subst hs
      exact hinv
    · subst hs
      intro cr hcr
      rcases mem_setR _ _ _ _ hcr with hnew | hold
      · subst hnew
        exact fun hc => by
          rw [hmod] at hc
          exact Option.noConfusion hc.2
      · exact hinv cr hold
    · subst hs
      intro cr hcr
      rcases mem_setR _ _ _ _ hcr with hnew | hold
      · subst hnew
        exact fun hc => by
          rw [hmod] at hc
          exact Option.noConfusion hc.2
      · exact hinv cr hold
    · subst hs
      intro cr hcr
      rcases mem_setR _ _ _ _ hcr with hnew | hold
      · subst hnew
        exact fun hc => by
          rw [hmod] at hc
          exact Option.noConfusion hc.2
      · exact hinv cr hold
    · subst hs
      intro cr hcr
      obtain ⟨cr0, hcr0, hmapped⟩ := List.mem_map.mp hcr
      obtain ⟨hcr0s, hkeep⟩ := List.mem_filter.mp hcr0
      subst hmapped
      intro hc
      have hc1 : List.filter (fun p => p.id != sid) cr0.2.players = [] := hc.1
      have hc2 : (if (cr0.2.moderatorId == some sid) = true then none
          else cr0.2.moderatorId) = none := hc.2
      have he1 : (cleanRoom sid cr0.2).players.isEmpty = true := by
        show (List.filter (fun p => p.id != sid) cr0.2.players).isEmpty = true
        rw [hc1]
        rfl
      have he2 : (cleanRoom sid cr0.2).moderatorId.isNone = true := by
        show (if (cr0.2.moderatorId == some sid) = true then none
          else cr0.2.moderatorId).isNone = true
        rw [hc2]
        rfl
      have hf : keepRoom sid cr0.2 = false := by
        rw [keepRoom, he1, he2]
        rfl
      rw [hf] at hkeep
      exact Bool.noConfusion hkeep
  · intro sid code room he' hnd hlookc hmodc hfil
    subst he'
    simp only [step, cleanupUser_eq, Except.ok.injEq, Prod.mk.injEq] at hstep
    obtain ⟨h1, h2⟩ := hstep
    subst h1
    apply lookupR_eq_none_of_keys
    intro cr' hcr'
    obtain ⟨cr0, hcr0, hmapped⟩ := List.mem_map.mp hcr'
    obtain ⟨hcr0s, hkeep⟩ := List.mem_filter.mp hcr0
    subst hmapped
    intro hkey
    have hcr0room : cr0.2 = room := by
      have hmemroom : (code, room) ∈ s := lookupR_mem _ _ _ hlookc
      have hmem' : (cr0.1, cr0.2) ∈ s := hcr0s
      rw [hkey] at hmem'
      exact mem_unique_of_nodup_keys s hnd code cr0.2 room hmem' hmemroom
    rw [hcr0room] at hkeep
    have he1 : (cleanRoom sid room).players.isEmpty = true := by
      show (List.filter (fun p => p.id != sid) room.players).isEmpty = true
      rw [hfil]
      rfl
    have he2 : (cleanRoom sid room).moderatorId.isNone = true := by
      show (if (room.moderatorId == some sid) = true then none
        else room.moderatorId).isNone = true
      rw [hmodc]
      rfl
    have hf : keepRoom sid room = false := by
      rw [keepRoom, he1, he2]
      rfl
    rw [hf] at hkeep
    exact Bool.noConfusion hkeep

/-- Closed witness for C4: the last (sole) player of a moderator-less room
disconnects and the room's code stops resolving. -/
theorem no_ghost_rooms_witness :
    (∀ cr ∈ ([] : Registry),
      ¬((cr.2 : Room).players = [] ∧ (cr.2 : Room).moderatorId = none))
    ∧ lookupR ([] : Registry) "ROOM" = none :=
  ⟨(no_ghost_rooms [("ROOM", ⟨none, [⟨"p1", "Ana", none⟩], .waiting⟩)]
      (.disconnect "p1") [] [(.group "ROOM", .player_count_update 0)]
      (by decide) rfl).1,
   (no_ghost_rooms [("ROOM", ⟨none, [⟨"p1", "Ana", none⟩], .waiting⟩)]
      (.disconnect "p1") [] [(.group "ROOM", .player_count_update 0)]
      (by decide) rfl).2 "p1" "ROOM"
      ⟨none, [⟨"p1", "Ana", none⟩], .waiting⟩ rfl (by decide) (by decide)
      (by decide) (by decide)⟩

/-! ### C5: players never contains two entries with the same id -/

theorem map_id_clearRole : ∀ ps : List Player,
    (ps.map (fun p => { p with role := none })).map Player.id = ps.map Player.id
  | [] => rfl
  | p :: ps => by simp [map_id_clearRole ps]

theorem nodup_filter_map_id (ps : List Player) (f : Player → Bool)
    (h : (ps.map Player.id).Nodup) : ((ps.filter f).map Player.id).Nodup :=
  h.sublist ((ps.filter_sublist).map Player.id)

/-- C5: if no room's players list has two entries with the same connection
identifier, that still holds after any successfully handled event; and a
successful `join_room` (first or repeated) always leaves exactly one players
entry for the joining connection identifier. -/
theorem players_id_nodup (s : Registry) (e : Event) (s' : Registry)
    (emits : List Emit)
    (hinv : ∀ cr ∈ s, (((cr.2 : Room).players.map Player.id).Nodup))
    (hstep : step s e = .ok (s', emits)) :
    (∀ cr ∈ s', (((cr.2 : Room).players.map Player.id).Nodup))
    ∧ (∀ sid roomId nameOpt room room',
        e = .join_room sid (some (some roomId, nameOpt)) →
        lookupR s (jsTrim (jsToUpper roomId)) = some room →
        lookupR s' (jsTrim (jsToUpper roomId)) = some room' →
        (room'.players.map Player.id).count sid = 1) := by
  constructor
  · rcases step_cases s e s' emits hstep with
        ⟨sid, code, room, he, hor, hs, hem⟩
      | ⟨sid, roomId, nameOpt, he, hlook, hs, hem⟩
      | ⟨sid, roomId, nameOpt, room, players', he, hlook, hpl, hs, hem⟩
      | ⟨hs, hem⟩
      | ⟨sid, roomId, selectedRoles, rand, room, he, hlook, hmod, hlen, hs, hem⟩
      | ⟨sid, roomId, selectedRoles, rand, room, he, hlook, hmod, hlen, hs, hem⟩
      | ⟨sid, roomId, room, he, hlook, hmod, hs, hem⟩
      | ⟨sid, roomId, playerIdOpt, targetConnected, room, players', he, hlook,
          hmod, hpl, hs, hem⟩
      | ⟨sid, he, hs, hem⟩
    · subst hs
      intro cr hcr
      rcases mem_setR _ _ _ _ hcr with hnew | hold
      · subst hnew
        rcases hor with hr | ⟨-, hr⟩
        · exact hinv (code, room) (lookupR_mem s code room hr)
        · subst hr
          simp
      · exact hinv cr hold
    · subst hs
      exact hinv
    · subst hs
      intro cr hcr
      rcases mem_setR _ _ _ _ hcr with hnew | hold
      · subst hnew
        rcases hpl with ⟨-, hpe⟩ | ⟨hany, hpe⟩
        · subst hpe
          exact hinv (_, room) (lookupR_mem _ _ room hlook)
        · subst hpe
          show ((room.players
            ++ ([⟨sid, joinName nameOpt sid, none⟩] : List Player)).map
            Player.id).Nodup
          rw [List.map_append, List.nodup_append]
          refine ⟨hinv (_, room) (lookupR_mem _ _ room hlook),
            List.nodup_singleton _, ?_⟩
          intro x hx hx'
          have hxsid : x = sid := by simpa using hx'
          obtain ⟨p, hp, hpid⟩ := List.mem_map.mp hx
          have hc : room.players.any (fun p => p.id == sid) = true :=
            List.any_eq_true.mpr ⟨p, hp, by
              rw [hpid, hxsid]
              exact beq_self_eq_true sid⟩
          rw [hc] at hany
          exact Bool.noConfusion hany
      · exact hinv cr hold
    · subst hs
      exact hinv
    · subst hs
      exact hinv
    · subst hs
      intro cr hcr
      rcases mem_setR _ _ _ _ hcr with hnew | hold
      · subst hnew
        have hlens : room.players.length = (fyShuffle rand selectedRoles).length := by
          rw [fyShuffle_length, hlen]
        show ((List.zipWith (fun p r => { p with role := some r })
          room.players (fyShuffle rand selectedRoles)).map Player.id).Nodup
        rw [zipWith_role_map_id room.players (fyShuffle rand selectedRoles) hlens]
        exact hinv (_, room) (lookupR_mem _ _ room hlook)
      · exact hinv cr hold
    · subst hs
      intro cr hcr
      rcases mem_setR _ _ _ _ hcr with hnew | hold
      · subst hnew
        show ((room.players.map (fun p => { p with role := none })).map
          Player.id).Nodup
        rw [map_id_clearRole]
        exact hinv (_, room) (lookupR_mem _ _ room hlook)
      · exact hinv cr hold
    · subst hs
      intro cr hcr
      rcases mem_setR _ _ _ _ hcr with hnew | hold
      · subst hnew
        cases playerIdOpt with
        | some pid =>
          rw [hpl]
          exact nodup_filter_map_id _ _ (hinv (_, room) (lookupR_mem _ _ room hlook))
        | none =>
          rw [hpl]
          exact hinv (_, room) (lookupR_mem _ _ room hlook)
      · exact hinv cr hold
    · subst hs
      intro cr hcr
      obtain ⟨cr0, hcr0, hmapped⟩ := List.mem_map.mp hcr
      obtain ⟨hcr0s, -⟩ := List.mem_filter.mp hcr0
      subst hmapped
      exact nodup_filter_map_id _ _ (hinv _ hcr0s)
  · intro sid roomId nameOpt room room' he' hlook1 hlook2
    subst he'
    simp only [step, hlook1] at hstep
    by_cases hex : room.players.any (fun p => p.id == sid) = true
    · rw [if_pos hex] at hstep
      simp only [Except.ok.injEq, Prod.mk.injEq] at hstep
      obtain ⟨h1, -⟩ := hstep
      rw [← h1, lookupR_setR_self] at hlook2
      obtain rfl : room' = { room with players := room.players } :=
        (Option.some_inj.mp hlook2).symm
      obtain ⟨p, hp, hpid⟩ := List.any_eq_true.mp hex
      have hmem : sid ∈ room.players.map Player.id := by
        have hps : p.id = sid := by simpa using hpid
        rw [← hps]
        exact List.mem_map_of_mem Player.id hp
      exact List.count_eq_one_of_mem
        (hinv (_, room) (lookupR_mem _ _ room hlook1)) hmem
    · rw [if_neg hex] at hstep
      simp only [Except.ok.injEq, Prod.mk.injEq] at hstep
      obtain ⟨h1, -⟩ := hstep
      rw [← h1, lookupR_setR_self] at hlook2
      obtain rfl : room' = { room with
          players := room.players ++ [⟨sid, joinName nameOpt sid, none⟩] } :=
        (Option.some_inj.mp hlook2).symm
      have hnot : sid ∉ room.players.map Player.id := by
        intro hmem
        obtain ⟨p, hp, hpid⟩ := List.mem_map.mp hmem
        exact hex (List.any_eq_true.mpr
          ⟨p, hp, by rw [hpid]; exact beq_self_eq_true sid⟩)
      show ((room.players ++ ([⟨sid, joinName nameOpt sid, none⟩] : List Player)).map
        Player.id).count sid = 1
      rw [List.map_append, List.count_append,
        List.count_eq_zero_of_not_mem hnot]
      simp

/-- Closed witness for C5: "p1" re-joins a room it is already in. -/
theorem players_id_nodup_witness :
    (∀ cr ∈ ([("ROOM", ⟨some "mod", [⟨"p1", "Ana", none⟩], .waiting⟩)] : Registry),
      (((cr.2 : Room).players.map Player.id).Nodup))
    ∧ ((⟨some "mod", [⟨"p1", "Ana", none⟩], .waiting⟩ : Room).players.map
        Player.id).count "p1" = 1 :=
  ⟨(players_id_nodup [("ROOM", ⟨some "mod", [⟨"p1", "Ana", none⟩], .waiting⟩)]
      (.join_room "p1" (some (some "ROOM", some "Zoe")))
      [("ROOM", ⟨some "mod", [⟨"p1", "Ana", none⟩], .waiting⟩)]
      [(.conn "p1", .role_assigned_player "ROOM"),
       (.group "ROOM", .player_count_update 1),
       (.conn "mod", .player_list_update [⟨"p1", "Ana", none⟩]),
       (.conn "p1", .init_state true 1)]
      (by decide) rfl).1,
   (players_id_nodup [("ROOM", ⟨some "mod", [⟨"p1", "Ana", none⟩], .waiting⟩)]
      (.join_room "p1" (some (some "ROOM", some "Zoe")))
      [("ROOM", ⟨some "mod", [⟨"p1", "Ana", none⟩], .waiting⟩)]
      [(.conn "p1", .role_assigned_player "ROOM"),
       (.group "ROOM", .player_count_update 1),
       (.conn "mod", .player_list_update [⟨"p1", "Ana", none⟩]),
       (.conn "p1", .init_state true 1)]
      (by decide) rfl).2 "p1" "ROOM" (some "Zoe")
      ⟨some "mod", [⟨"p1", "Ana", none⟩], .waiting⟩
      ⟨some "mod", [⟨"p1", "Ana", none⟩], .waiting⟩ rfl (by decide) (by decide)⟩

/-! ### C9: the disconnect sweep -/

/-- C9 counterexample: in a room whose moderator connection "s1" is also in
the players list, `disconnect "s1"` does not stop at clearing the moderator:
the players entry is removed as well (witness the `player_count_update 0`
notification) and the then empty, unmoderated room is deleted, so "AAAA" no
longer resolves.  The claim's "else (only otherwise)" would have kept the
players list untouched (one entry) and the room alive. -/
theorem disconnect_both_branches :
    step [("AAAA", ⟨some "s1", [⟨"s1", "Ana", none⟩], .waiting⟩)] (.disconnect "s1")
      = .ok ([], [(.group "AAAA", .mod_status_update false),
                  (.group "AAAA", .player_count_update 0)])
    ∧ lookupR ([] : Registry) "AAAA" = none :=
  ⟨rfl, rfl⟩

/-- C9 (amended): on a disconnect, for every room, a matching moderator is
cleared with a group notification, AND — not exclusively — the connection is
removed from players when present, with count (and, if a moderator remains,
list) notifications; afterwards rooms left empty and unmoderated are swept
from the registry. -/
theorem disconnect_spec (s : Registry) (sid : String) :
    step s (.disconnect sid) =
      .ok ((s.filter (fun cr => keepRoom sid cr.2)).map
            (fun cr => (cr.1, cleanRoom sid cr.2)),
        s.flatMap (fun cr => roomEmits sid cr.1 cr.2))
    ∧ (∀ room : Room, cleanRoom sid room =
        ⟨(if room.moderatorId = some sid then none else room.moderatorId),
         room.players.filter (fun p => p.id != sid), room.status⟩)
    ∧ (∀ cr ∈ s, keepRoom sid (cr.2 : Room) = true →
        (cr.1, cleanRoom sid cr.2) ∈ (s.filter (fun cr => keepRoom sid cr.2)).map
          (fun cr => (cr.1, cleanRoom sid cr.2)))
    ∧ (∀ cr' ∈ (s.filter (fun cr => keepRoom sid cr.2)).map
          (fun cr => (cr.1, cleanRoom sid cr.2)),
        ∃ room₀ : Room, (cr'.1, room₀) ∈ s ∧ cr'.2 = cleanRoom sid room₀
          ∧ keepRoom sid room₀ = true)
    ∧ (∀ cr ∈ s, (cr.2 : Room).moderatorId = some sid →
        (Recipient.group cr.1, Msg.mod_status_update false)
          ∈ s.flatMap (fun cr => roomEmits sid cr.1 cr.2))
    ∧ (∀ cr ∈ s, (cr.2 : Room).players.filter (fun p => p.id != sid)
          ≠ (cr.2 : Room).players →
        (Recipient.group cr.1, Msg.player_count_update
            ((cr.2 : Room).players.filter (fun p => p.id != sid)).length)
          ∈ s.flatMap (fun cr => roomEmits sid cr.1 cr.2)) := by
  refine ⟨?_, ?_, ?_, ?_, ?_, ?_⟩
  · rw [show step s (.disconnect sid) = .ok (cleanupUser sid s) from rfl,
      cleanupUser_eq]
  · intro room
    by_cases h : room.moderatorId = some sid
    · simp [cleanRoom, h]
    · have hb : (room.moderatorId == some sid) = false := beq_eq_false_iff_ne.mpr h
      simp [cleanRoom, hb, h]
  · intro cr hcr hkeep
    exact List.mem_map_of_mem _ (List.mem_filter.mpr ⟨hcr, hkeep⟩)
  · intro cr' hcr'
    obtain ⟨cr0, hcr0, hmapped⟩ := List.mem_map.mp hcr'
    obtain ⟨hcr0s, hkeep⟩ := List.mem_filter.mp hcr0
    exact ⟨cr0.2, by rw [← hmapped]; exact hcr0s, by rw [← hmapped], hkeep⟩
  · intro cr hcr hmod
    refine List.mem_flatMap.mpr ⟨cr, hcr, ?_⟩
    rw [roomEmits]
    apply List.mem_append_left
    rw [if_pos (beq_iff_eq.mpr hmod)]
    exact List.mem_singleton.mpr rfl
  · intro cr hcr hne
    refine List.mem_flatMap.mpr ⟨cr, hcr, ?_⟩
    rw [roomEmits]
    apply List.mem_append_right
    have hlenne : ((cr.2 : Room).players.filter (fun p => p.id != sid)).length
        ≠ (cr.2 : Room).players.length := by
      intro hlen
      exact hne (List.Sublist.eq_of_length (List.filter_sublist _) hlen)
    rw [if_pos (by
      show ((cleanRoom sid cr.2).players.length != cr.2.players.length) = true
      exact bne_iff_ne.mpr hlenne)]
    exact List.mem_cons_self _ _

/-- Closed witness for C9: applied to the one-room registry, the moderator
loss notification is among the disconnect emissions. -/
theorem disconnect_spec_witness :
    (Recipient.group "AAAA", Msg.mod_status_update false)
      ∈ ([("AAAA", ⟨some "s1", [⟨"s1", "Ana", none⟩], .waiting⟩)] : Registry).flatMap
          (fun cr => roomEmits "s1" cr.1 cr.2) :=
  (disconnect_spec [("AAAA", ⟨some "s1", [⟨"s1", "Ana", none⟩], .waiting⟩)]
      "s1").2.2.2.2.1
    ("AAAA", ⟨some "s1", [⟨"s1", "Ana", none⟩], .waiting⟩) (by decide) (by decide)

/-! ### C6: event safety -/

/-- Payload shapes that do not make the JS handler throw while destructuring
or dereferencing: the payload object exists, `join_room` has a `roomId`
usable as a string, and `start_assign_roles` has a `selectedRoles` array. -/
def wellFormedEvent : Event → Prop
  | .create_room _ _ => True
  | .join_room _ payload => ∃ roomId nameOpt, payload = some (some roomId, nameOpt)
  | .start_assign_roles _ payload _ =>
      ∃ roomIdOpt roles, payload = some (roomIdOpt, some roles)
  | .reset_room _ payload => ∃ roomIdOpt, payload = some roomIdOpt
  | .kick_player _ payload _ =>
      ∃ roomIdOpt playerIdOpt, payload = some (roomIdOpt, playerIdOpt)
  | .disconnect _ => True

/-- The rooms an event may legitimately touch: the room named by its payload
(normalized for `join_room`), or, for a disconnect, the rooms the connection
moderates or plays in. -/
def eventTouches (e : Event) (s : Registry) (code : String) : Prop :=
  match e with
  | .create_room _ c => code = c
  | .join_room _ payload => ∃ roomId nameOpt,
      payload = some (some roomId, nameOpt) ∧ code = jsTrim (jsToUpper roomId)
  | .start_assign_roles _ payload _ =>
      ∃ rest, payload = some (some code, rest)
  | .reset_room _ payload => payload = some (some code)
  | .kick_player _ payload _ => ∃ rest, payload = some (some code, rest)
  | .disconnect sid => ∃ room : Room, (code, room) ∈ s
      ∧ (room.moderatorId = some sid ∨ sid ∈ room.players.map Player.id)

/-- An emitted error message. -/
def isErrorEmit (em : Emit) : Bool :=
  match em.2 with
  | .error_msg _ => true
  | _ => false

theorem mem_setR_of_ne (s : Registry) (code target : String) (room new : Room)
    (hmem : (code, room) ∈ s) (hne : code ≠ target) :
    (code, room) ∈ setR s target new := by
  induction s with
  | nil => simp at hmem
  | cons cr rest ih =>
    obtain ⟨c, r⟩ := cr
    rw [setR_cons]
    by_cases hc : c = target
    · rw [if_pos hc]
      rcases List.mem_cons.mp hmem with h1 | h2
      · injection h1 with h3 h4
        exact absurd (h3.trans hc) hne
      · exact List.mem_cons_of_mem _ h2
    · rw [if_neg hc]
      rcases List.mem_cons.mp hmem with h1 | h2
      · exact h1 ▸ List.mem_cons_self _ _
      · exact List.mem_cons_of_mem _ (ih h2)

theorem countP_isError_zipWith : ∀ (ps : List Player) (rs : List String),
    (List.zipWith (fun (p : Player) (r : String) =>
      ((Recipient.conn p.id, Msg.receive_role r) : Emit)) ps rs).countP
      isErrorEmit = 0
  | [], _ => by simp
  | _ :: _, [] => by simp
  | p :: ps, r :: rs => by
    rw [List.zipWith_cons_cons, List.countP_cons]
    rw [countP_isError_zipWith ps rs]
    rfl

theorem countP_isError_roomEmits (sid code : String) (room : Room) :
    (roomEmits sid code room).countP isErrorEmit = 0 := by
  rw [roomEmits, List.countP_append]
  have h1 : (if (room.moderatorId == some sid) = true
      then [((Recipient.group code, Msg.mod_status_update false) : Emit)]
      else []).countP isErrorEmit = 0 := by
    by_cases h : (room.moderatorId == some sid) = true
    · rw [if_pos h]
      rfl
    · rw [if_neg h]
      rfl
  have h2 : (if ((cleanRoom sid room).players.length != room.players.length) = true
      then ((Recipient.group code,
            Msg.player_count_update (cleanRoom sid room).players.length) : Emit) ::
          (match (cleanRoom sid room).moderatorId with
           | some m => [(Recipient.conn m,
               Msg.player_list_update (cleanRoom sid room).players)]
           | none => [])
      else []).countP isErrorEmit = 0 := by
    by_cases h : ((cleanRoom sid room).players.length != room.players.length) = true
    · rw [if_pos h, List.countP_cons]
      cases hm : (cleanRoom sid room).moderatorId with
      | some m => rfl
      | none => rfl
    · rw [if_neg h]
      rfl
  rw [h1, h2]

theorem countP_isError_flatMap (sid : String) : ∀ s : Registry,
    (s.flatMap (fun cr => roomEmits sid cr.1 cr.2)).countP isErrorEmit = 0
  | [] => rfl
  | cr :: rest => by
    rw [List.flatMap_cons, List.countP_append, countP_isError_roomEmits,
      countP_isError_flatMap sid rest]

theorem step_error_cases (s : Registry) (e : Event)
    (h : step s e = .error ()) : ¬wellFormedEvent e := by
  cases e with
  | create_room sid code =>
    intro hwf
    simp only [step, getRoom] at h
    split at h <;> exact Except.noConfusion h
  | join_room sid payload =>
    intro hwf
    obtain ⟨roomId, nameOpt, hp⟩ := hwf
    subst hp
    simp only [step] at h
    split at h
    · exact Except.noConfusion h
    · split at h <;> exact Except.noConfusion h
  | start_assign_roles sid payload rand =>
    intro hwf
    obtain ⟨roomIdOpt, roles, hp⟩ := hwf
    subst hp
    cases roomIdOpt with
    | none => exact Except.noConfusion h
    | some roomId =>
      simp only [step] at h
      split at h
      · exact Except.noConfusion h
      · split at h
        · split at h <;> exact Except.noConfusion h
        · exact Except.noConfusion h
  | reset_room sid payload =>
    intro hwf
    obtain ⟨roomIdOpt, hp⟩ := hwf
    subst hp
    cases roomIdOpt with
    | none => exact Except.noConfusion h
    | some roomId =>
      simp only [step] at h
      split at h
      · exact Except.noConfusion h
      · split at h <;> exact Except.noConfusion h
  | kick_player sid payload targetConnected =>
    intro hwf
    obtain ⟨roomIdOpt, playerIdOpt, hp⟩ := hwf
    subst hp
    cases roomIdOpt with
    | none => exact Except.noConfusion h
    | some roomId =>
      simp only [step] at h
      split at h
      · exact Except.noConfusion h
      · split at h <;> exact Except.noConfusion h
  | disconnect sid =>
    intro hwf
    exact Except.noConfusion h

/-- C6 counterexample: a `join_room` whose payload is absent makes the handler
throw (destructuring `undefined`), modelled as an `.error` result — so a
malformed inbound event is not handled exception-free, contrary to the
claim. -/
theorem malformed_join_throws :
    step [] (.join_room "s1" none) = .error ()
    ∧ step [] (.join_room "s1" (some (none, some "Ana"))) = .error ()
    ∧ step [("ROOM", ⟨some "mod", [], .waiting⟩)]
        (.start_assign_roles "mod" (some (some "ROOM", none)) (fun _ => 0))
      = .error () :=
  ⟨rfl, rfl, rfl⟩

/-- C6 (amended to well-formed payloads): an inbound event whose payload has
the fields the handler dereferences is always handled without an exception;
any successfully handled event leaves every room the caller's event does not
name (and, for a disconnect, every room the connection neither moderates nor
plays in) exactly as it was, and emits at most one error message in total.
Malformed payloads may throw, but the throw happens before any mutation, so
the registry is never left partially updated (the `.error` results above
carry no mutated state by construction of the embedding). -/
theorem event_safety (s : Registry) (e : Event)
    (hinv : ∀ cr ∈ s, ¬((cr.2 : Room).players = [] ∧ (cr.2 : Room).moderatorId = none)) :
    (wellFormedEvent e → ∃ s' emits, step s e = .ok (s', emits))
    ∧ (∀ s' emits, step s e = .ok (s', emits) →
        (∀ code room, (code, room) ∈ s → ¬eventTouches e s code → (code, room) ∈ s')
        ∧ emits.countP isErrorEmit ≤ 1) := by
  constructor
  · intro hwf
    cases hres : step s e with
    | ok r => exact ⟨r.1, r.2, rfl⟩
    | error u =>
      cases u
      exact absurd hwf (step_error_cases s e hres)
  · intro s' emits hstep
    rcases step_cases s e s' emits hstep with
        ⟨sid, code, room, he, hor, hs, hem⟩
      | ⟨sid, roomId, nameOpt, he, hlook, hs, hem⟩
      | ⟨sid, roomId, nameOpt, room, players', he, hlook, hpl, hs, hem⟩
      | ⟨hs, hem⟩
      | ⟨sid, roomId, selectedRoles, rand, room, he, hlook, hmod, hlen, hs, hem⟩
      | ⟨sid, roomId, selectedRoles, rand, room, he, hlook, hmod, hlen, hs, hem⟩
      | ⟨sid, roomId, room, he, hlook, hmod, hs, hem⟩
      | ⟨sid, roomId, playerIdOpt, targetConnected, room, players', he, hlook,
          hmod, hpl, hs, hem⟩
      | ⟨sid, he, hs, hem⟩
    · subst he hs hem
      constructor
      · intro code' room' hmem hnt
        exact mem_setR_of_ne s code' code room' _ hmem
          (fun hc => hnt (by rw [eventTouches, hc]))
      · simp [List.countP_cons, isErrorEmit]
    · subst he hs hem
      constructor
      · intro code' room' hmem hnt
        exact hmem
      · simp [List.countP_cons, isErrorEmit]
    · subst he hs hem
      constructor
      · intro code' room' hmem hnt
        refine mem_setR_of_ne s code' _ room' _ hmem (fun hc => hnt ?_)
        rw [eventTouches]
        exact ⟨roomId, nameOpt, rfl, hc⟩
      · rw [List.countP_append, List.countP_append]
        cases room.moderatorId with
        | some m => simp [List.countP_cons, isErrorEmit]
        | none => simp [List.countP_cons, isErrorEmit]
    · subst hs hem
      exact ⟨fun code' room' hmem hnt => hmem, by simp⟩
    · subst he hs hem
      constructor
      · intro code' room' hmem hnt
        exact hmem
      · simp [List.countP_cons, isErrorEmit]
    · subst he hs hem
      constructor
      · intro code' room' hmem hnt
        refine mem_setR_of_ne s code' _ room' _ hmem (fun hc => hnt ?_)
        rw [eventTouches]
        exact ⟨some selectedRoles, by rw [hc]⟩
      · rw [List.countP_append, countP_isError_zipWith]
        simp [List.countP_cons, isErrorEmit]
    · subst he hs hem
      constructor
      · intro code' room' hmem hnt
        refine mem_setR_of_ne s code' _ room' _ hmem (fun hc => hnt ?_)
        rw [eventTouches, hc]
      · simp [List.countP_cons, isErrorEmit]
    · subst he hs hem
      constructor
      · intro code' room' hmem hnt
        refine mem_setR_of_ne s code' _ room' _ hmem (fun hc => hnt ?_)
        rw [eventTouches]
        exact ⟨playerIdOpt, by rw [hc]⟩
      · rw [List.countP_append]
        cases playerIdOpt with
        | some pid =>
          cases targetConnected with
          | true => simp [List.countP_cons, isErrorEmit]
          | false => simp [List.countP_cons, isErrorEmit]
        | none => simp [List.countP_cons, isErrorEmit]
    · subst he hs hem
      constructor
      · intro code' room' hmem hnt
        rw [eventTouches] at hnt
        have hmodne : room'.moderatorId ≠ some sid := by
          intro hc
          exact hnt ⟨room', hmem, Or.inl hc⟩
        have hidne : sid ∉ room'.players.map Player.id := by
          intro hc
          exact hnt ⟨room', hmem, Or.inr hc⟩
        have hclean : cleanRoom sid room' = room' := by
          rw [cleanRoom]
          have hb : (room'.moderatorId == some sid) = false :=
            beq_eq_false_iff_ne.mpr hmodne
          rw [hb]
          have hfil : room'.players.filter (fun p => p.id != sid)
              = room'.players := by
            apply List.filter_eq_self.mpr
            intro p hp
            refine bne_iff_ne.mpr (fun hc => hidne ?_)
            rw [← hc]
            exact List.mem_map_of_mem Player.id hp
          simp [hfil]
        have hkeep : keepRoom sid room' = true := by
          rw [keepRoom, hclean]
          cases hpl : room'.players with
          | nil =>
            cases hmod2 : room'.moderatorId with
            | none => exact absurd ⟨hpl, hmod2⟩ (hinv (code', room') hmem)
            | some m => rfl
          | cons q qs => rfl
        have hstep2 : (code', cleanRoom sid room')
            ∈ (s.filter (fun cr => keepRoom sid cr.2)).map
              (fun cr => (cr.1, cleanRoom sid cr.2)) :=
          List.mem_map_of_mem _ (List.mem_filter.mpr ⟨hmem, hkeep⟩)
        rw [hclean] at hstep2
        exact hstep2
      · rw [countP_isError_flatMap]
        exact Nat.zero_le 1

/-- Closed witness for C6: a well-formed join to an unknown code succeeds
(as an error-message no-op), leaves the one unrelated room in place, and
emits exactly one error message. -/
theorem event_safety_witness :
    (∃ s' emits, step [("ROOM", ⟨some "mod", [⟨"p1", "Ana", none⟩], .waiting⟩)]
        (.join_room "p2" (some (some "NOPE", none))) = .ok (s', emits))
    ∧ ((∀ code room,
          (code, room) ∈ ([("ROOM", ⟨some "mod", [⟨"p1", "Ana", none⟩],
              .waiting⟩)] : Registry) →
          ¬eventTouches (.join_room "p2" (some (some "NOPE", none)))
            [("ROOM", ⟨some "mod", [⟨"p1", "Ana", none⟩], .waiting⟩)] code →
          (code, room) ∈ ([("ROOM", ⟨some "mod", [⟨"p1", "Ana", none⟩],
              .waiting⟩)] : Registry))
        ∧ ([((Recipient.conn "p2"),
            Msg.error_msg (roomNotFoundMsg "NOPE"))] : List Emit).countP
            isErrorEmit ≤ 1) :=
  ⟨(event_safety [("ROOM", ⟨some "mod", [⟨"p1", "Ana", none⟩], .waiting⟩)]
      (.join_room "p2" (some (some "NOPE", none))) (by decide)).1
      ⟨"NOPE", none, rfl⟩,
   (event_safety [("ROOM", ⟨some "mod", [⟨"p1", "Ana", none⟩], .waiting⟩)]
      (.join_room "p2" (some (some "NOPE", none))) (by decide)).2
      [("ROOM", ⟨some "mod", [⟨"p1", "Ana", none⟩], .waiting⟩)]
      [((Recipient.conn "p2"), Msg.error_msg (roomNotFoundMsg "NOPE"))] rfl⟩

/-! ### C7: role privacy -/

/-- What it means for one outbound message to respect role privacy, relative
to the post-event registry: a `receive_role` is addressed to the connection
whose own (just assigned) role it carries; `player_list_update` and
`role_summary` payloads (which expose roles of whole rooms) are addressed to
the one connection that is the moderator of the room they describe.  All
other message kinds carry no role data. -/
def emitOk (s' : Registry) (em : Emit) : Prop :=
  match em.2 with
  | .receive_role r => ∃ pid, em.1 = .conn pid
      ∧ ∃ (code : String) (room : Room) (p : Player),
          (code, room) ∈ s' ∧ p ∈ room.players ∧ p.id = pid ∧ p.role = some r
  | .player_list_update ps => ∃ m, em.1 = .conn m
      ∧ ∃ (code : String) (room : Room), (code, room) ∈ s'
        ∧ room.moderatorId = some m ∧ ps = room.players
  | .role_summary summ => ∃ m, em.1 = .conn m
      ∧ ∃ (code : String) (room : Room), (code, room) ∈ s'
        ∧ room.moderatorId = some m ∧ summ = buildRoleSummary room.players
  | _ => True

theorem roleEmit_ok : ∀ (ps : List Player) (rs : List String) (em : Emit),
    em ∈ List.zipWith (fun (p : Player) (r : String) =>
      ((Recipient.conn p.id, Msg.receive_role r) : Emit)) ps rs →
    ∃ (p : Player) (r : String), em = (Recipient.conn p.id, Msg.receive_role r)
      ∧ ({ p with role := some r } : Player)
          ∈ List.zipWith (fun p r => { p with role := some r }) ps rs
  | [], _, em, h => by simp at h
  | _ :: _, [], em, h => by simp at h
  | p :: ps, r :: rs, em, h => by
    rcases List.mem_cons.mp h with h1 | h2
    · exact ⟨p, r, h1, List.mem_cons_self _ _⟩
    · obtain ⟨p', r', he, hm⟩ := roleEmit_ok ps rs em h2
      exact ⟨p', r', he, List.mem_cons_of_mem _ hm⟩

theorem roomEmits_cases (sid code : String) (room : Room) (em : Emit)
    (h : em ∈ roomEmits sid code room) :
    em = (Recipient.group code, Msg.mod_status_update false)
    ∨ em = (Recipient.group code,
        Msg.player_count_update (cleanRoom sid room).players.length)
    ∨ (∃ m, (cleanRoom sid room).moderatorId = some m
        ∧ em = (Recipient.conn m,
            Msg.player_list_update (cleanRoom sid room).players)) := by
  rw [roomEmits] at h
  rcases List.mem_append.mp h with h1 | h2
  · left
    by_cases hmod : (room.moderatorId == some sid) = true
    · rw [if_pos hmod] at h1
      exact List.mem_singleton.mp h1
    · rw [if_neg hmod] at h1
      simp at h1
  · by_cases hrem : ((cleanRoom sid room).players.length
        != room.players.length) = true
    · rw [if_pos hrem] at h2
      rcases List.mem_cons.mp h2 with h3 | h4
      · exact Or.inr (Or.inl h3)
      · refine Or.inr (Or.inr ?_)
        cases hm : (cleanRoom sid room).moderatorId with
        | some m =>
          rw [hm] at h4
          exact ⟨m, rfl, List.mem_singleton.mp h4⟩
        | none =>
          rw [hm] at h4
          simp at h4
    · rw [if_neg hrem] at h2
      simp at h2

/-- C7: whatever the state and the successfully handled event, every emitted
message that contains role data is addressed to a single connection: a
player's role only to that player's own connection via `receive_role`, and
full player lists / role summaries only to the moderator of the room they
describe.  Group broadcasts never carry role data, so no connection other
than the moderator ever receives another player's role. -/
theorem role_privacy (s : Registry) (e : Event) (s' : Registry)
    (emits : List Emit) (hstep : step s e = .ok (s', emits)) :
    ∀ em ∈ emits, emitOk s' em := by
  rcases step_cases s e s' emits hstep with
      ⟨sid, code, room, he, hor, hs, hem⟩
    | ⟨sid, roomId, nameOpt, he, hlook, hs, hem⟩
    | ⟨sid, roomId, nameOpt, room, players', he, hlook, hpl, hs, hem⟩
    | ⟨hs, hem⟩
    | ⟨sid, roomId, selectedRoles, rand, room, he, hlook, hmod, hlen, hs, hem⟩
    | ⟨sid, roomId, selectedRoles, rand, room, he, hlook, hmod, hlen, hs, hem⟩
    | ⟨sid, roomId, room, he, hlook, hmod, hs, hem⟩
    | ⟨sid, roomId, playerIdOpt, targetConnected, room, players', he, hlook,
        hmod, hpl, hs, hem⟩
    | ⟨sid, he, hs, hem⟩
  · subst hs hem
    intro em hem'
    simp only [List.mem_cons, List.not_mem_nil, or_false] at hem'
    rcases hem' with rfl | rfl | rfl | rfl
    · exact trivial
    · exact trivial
    · exact ⟨sid, rfl, code, _, mem_setR_self s code _, rfl, rfl⟩
    · exact trivial
  · subst hs hem
    intro em hem'
    simp only [List.mem_cons, List.not_mem_nil, or_false] at hem'
    rcases hem' with rfl
    exact trivial
  · subst hs hem
    intro em hem'
    cases hm : room.moderatorId with
    | some m =>
      rw [hm] at hem'
      simp only [List.cons_append, List.nil_append, List.mem_cons,
        List.not_mem_nil, or_false] at hem'
      rcases hem' with rfl | rfl | rfl | rfl
      · exact trivial
      · exact trivial
      · exact ⟨m, rfl, jsTrim (jsToUpper roomId), _,
          mem_setR_self s _ _, rfl, rfl⟩
      · exact trivial
    | none =>
      rw [hm] at hem'
      simp only [List.cons_append, List.nil_append, List.mem_cons,
        List.not_mem_nil, or_false] at hem'
      rcases hem' with rfl | rfl | rfl
      · exact trivial
      · exact trivial
      · exact trivial
  · subst hs hem
    intro em hem'
    simp at hem'
  · subst hs hem
    intro em hem'
    simp only [List.mem_cons, List.not_mem_nil, or_false] at hem'
    rcases hem' with rfl
    exact trivial
  · subst hs hem
    intro em hem'
    rcases List.mem_append.mp hem' with hrole | hrest
    · obtain ⟨p, r, hempr, hmem⟩ := roleEmit_ok room.players
        (fyShuffle rand selectedRoles) em hrole
      subst hempr
      exact ⟨p.id, rfl, roomId, _, _, mem_setR_self s roomId _, hmem, rfl, rfl⟩
    · simp only [List.mem_cons, List.not_mem_nil, or_false] at hrest
      rcases hrest with rfl | rfl
      · exact ⟨sid, rfl, roomId, _, mem_setR_self s roomId _, hmod, rfl⟩
      · exact trivial
  · subst hs hem
    intro em hem'
    simp only [List.mem_cons, List.not_mem_nil, or_false] at hem'
    rcases hem' with rfl | rfl | rfl | rfl
    · exact trivial
    · exact ⟨sid, rfl, roomId, _, mem_setR_self s roomId _, hmod, rfl⟩
    · exact trivial
    · exact trivial
  · subst hs hem
    intro em hem'
    cases playerIdOpt with
    | some pid =>
      cases targetConnected with
      | true =>
        simp only [if_true, List.cons_append, List.nil_append, List.mem_cons,
          List.not_mem_nil, or_false] at hem'
        rcases hem' with rfl | rfl | rfl | rfl
        · exact trivial
        · exact ⟨sid, rfl, roomId, _, mem_setR_self s roomId _, hmod, rfl⟩
        · exact trivial
        · exact trivial
      | false =>
        simp only [Bool.false_eq_true, if_false, List.append_nil,
          List.mem_cons, List.not_mem_nil, or_false] at hem'
        rcases hem' with rfl | rfl
        · exact trivial
        · exact ⟨sid, rfl, roomId, _, mem_setR_self s roomId _, hmod, rfl⟩
    | none =>
      simp only [List.append_nil, List.mem_cons, List.not_mem_nil,
        or_false] at hem'
      rcases hem' with rfl | rfl
      · exact trivial
      · exact ⟨sid, rfl, roomId, _, mem_setR_self s roomId _, hmod, rfl⟩
  · subst hs hem
    intro em hem'
    obtain ⟨cr, hcr, hem2⟩ := List.mem_flatMap.mp hem'
    rcases roomEmits_cases sid cr.1 cr.2 em hem2 with h1 | h2 | ⟨m, hm, h3⟩
    · subst h1
      exact trivial
    · subst h2
      exact trivial
    · subst h3
      have hkeep : keepRoom sid cr.2 = true := by
        rw [keepRoom, hm]
        simp
      refine ⟨m, rfl, cr.1, cleanRoom sid cr.2, ?_, hm, rfl⟩
      exact List.mem_map_of_mem _ (List.mem_filter.mpr ⟨hcr, hkeep⟩)

/-- Closed witness for C7: in a reset re-broadcast, the emitted full player
list respects privacy (it is addressed to the moderator connection). -/
theorem role_privacy_witness :
    emitOk [("ROOM", ⟨some "mod", [⟨"p1", "Ana", none⟩], .waiting⟩)]
      (.conn "mod", .player_list_update [⟨"p1", "Ana", none⟩]) :=
  role_privacy
    [("ROOM", ⟨some "mod", [⟨"p1", "Ana", some "Wolf"⟩], .assigned⟩)]
    (.reset_room "mod" (some (some "ROOM")))
    [("ROOM", ⟨some "mod", [⟨"p1", "Ana", none⟩], .waiting⟩)]
    [(.group "ROOM", .room_reset),
     (.conn "mod", .player_list_update [⟨"p1", "Ana", none⟩]),
     (.conn "mod", .player_count_update 1),
     (.conn "mod", .status_msg resetSuccessMsg)] rfl
    (.conn "mod", .player_list_update [⟨"p1", "Ana", none⟩]) (by decide)
